import Mathlib

/-!
Shallow embedding of the Jelly Jump game simulation core
(`GameEngine.ts`, `constants.ts`, plus the `Platform` / `Player` entity
classes) and proofs about the claims of the specification.

Modelling conventions:
* JavaScript numbers are embedded as rationals (`ℚ`); integer-valued
  quantities (score, streak, jump count) as `ℕ`.
* The JavaScript heap of `Platform` objects is modelled as a growing list
  `store : List Platform` (object identity = index into the store); the
  engine's `platforms` array is a list of store indices in array order.
  Removing a platform from the array removes its index from `platforms`
  but leaves the store entry in place, exactly like dropping the last
  reference to a live JS object.
* `Math.random()` draws are supplied as explicit rational parameters
  (`SpawnRands`); their contract `0 ≤ r < 1` appears as a hypothesis
  where a theorem needs it.
* Purely cosmetic state that no other code reads (particle lists,
  floating texts, screen shake, the player's squash/stretch scale
  factors, audio calls, canvas drawing) is omitted: the source never
  lets it feed back into physics, collision, scoring or notifications.
* The four outbound notification callbacks are modelled as an event
  list returned by each operation, in invocation order.
-/

namespace JellyJump

/-! ### Constants (`constants.ts`) -/

def GRAVITY : ℚ := 1/2
def JUMP_FORCE : ℚ := -15
def DOUBLE_JUMP_FORCE : ℚ := -12
def MOVE_SPEED_INITIAL : ℚ := 3
def PLATFORM_SPACING : ℚ := 150
def PLATFORM_WIDTH_MIN : ℚ := 80
def PLATFORM_WIDTH_MAX : ℚ := 180
def PLATFORM_HEIGHT : ℚ := 20
def PLAYER_SIZE : ℚ := 40
def PERFECT_TOLERANCE : ℚ := 15
def FEVER_THRESHOLD : ℕ := 3
def FEVER_MULTIPLIER : ℕ := 2

def NEON_CYAN : String := "#00f3ff"
def NEON_MAGENTA : String := "#ff00ff"
def NEON_LIME : String := "#00ff9d"
def NEON_YELLOW : String := "#ffea00"
def WHITE : String := "#ffffff"

def PLATFORM_COLORS : List String := [NEON_CYAN, NEON_MAGENTA, NEON_LIME, NEON_YELLOW]

/-! ### Data model -/

inductive GameState where
  | start
  | playing
  | gameover
deriving DecidableEq, Repr

/-- The `Platform` class: `vx`, `passed`, `landedOn` start at their
field initializers; `height` is `GAME_CONFIG.PLATFORM_HEIGHT`. -/
structure Platform where
  x : ℚ
  y : ℚ
  width : ℚ
  height : ℚ
  color : String
  vx : ℚ
  passed : Bool
  landedOn : Bool
deriving DecidableEq, Repr

/-- The `Platform` constructor. -/
def Platform.new (x y width : ℚ) (color : String) : Platform :=
  { x := x, y := y, width := width, height := PLATFORM_HEIGHT, color := color,
    vx := 0, passed := false, landedOn := false }

/-- The `Player` class (cosmetic scale fields omitted, see header).
`currentPlatform` is a store index, `none` for JS `null`. -/
structure Player where
  x : ℚ
  y : ℚ
  vx : ℚ
  vy : ℚ
  width : ℚ
  height : ℚ
  color : String
  jumps : ℕ
  currentPlatform : Option ℕ
deriving DecidableEq, Repr

/-- The `Player` constructor. -/
def Player.new (startX startY : ℚ) : Player :=
  { x := startX, y := startY, vx := 0, vy := 0,
    width := PLAYER_SIZE, height := PLAYER_SIZE, color := WHITE,
    jumps := 0, currentPlatform := none }

/-- `Player.update()`: stick to the platform (pin `vy` to 0 and `y` to
the platform surface, detach when outside the span plus a 5-unit edge
tolerance), otherwise apply gravity and integrate. -/
def Player.update (store : List Platform) (pl : Player) : Player :=
  match pl.currentPlatform with
  | some pid =>
    match store[pid]? with
    | some plat =>
      let pl' := { pl with vy := 0, y := plat.y - pl.height / 2 }
      if pl'.x < plat.x - 5 ∨ pl'.x > plat.x + plat.width + 5 then
        { pl' with currentPlatform := none }
      else
        pl'
    | none => pl
  | none =>
    let vy' := pl.vy + GRAVITY
    { pl with vy := vy', y := pl.y + vy' }

/-- `Player.jump(force)`. -/
def Player.jump (force : ℚ) (pl : Player) : Player :=
  { pl with currentPlatform := none, vy := force, jumps := pl.jumps + 1 }

/-- `Player.land(platform)`; `pid` is the store index of `platform`. -/
def Player.land (plat : Platform) (pid : ℕ) (pl : Player) : Player :=
  { pl with
    currentPlatform := some pid, vy := 0, jumps := 0,
    y := plat.y - pl.height / 2 }

/-- One outbound notification callback invocation. -/
inductive Event where
  | scoreUpdate (n : ℕ)
  | stateChange (s : GameState)
  | feverChange (b : Bool)
  | comboChange (n : ℕ)
deriving DecidableEq, Repr

/-- The five `Math.random()` draws consumed by one `spawnPlatform` call:
width, x position, color index, velocity sign, velocity magnitude. -/
structure SpawnRands where
  rw : ℚ
  rx : ℚ
  rc : ℚ
  rs : ℚ
  rm : ℚ
deriving DecidableEq, Repr

def SpawnRands.valid (r : SpawnRands) : Prop :=
  (0 ≤ r.rw ∧ r.rw < 1) ∧ (0 ≤ r.rx ∧ r.rx < 1) ∧ (0 ≤ r.rc ∧ r.rc < 1) ∧
  (0 ≤ r.rs ∧ r.rs < 1) ∧ (0 ≤ r.rm ∧ r.rm < 1)

instance (r : SpawnRands) : Decidable r.valid := by
  unfold SpawnRands.valid; infer_instance

/-- The `GameEngine` state (canvas, rAF bookkeeping and cosmetic
entities omitted, see header). -/
structure GameEngine where
  player : Player
  store : List Platform
  platforms : List ℕ
  state : GameState
  score : ℕ
  gameSpeed : ℚ
  perfectStreak : ℕ
  isFever : Bool
  viewportWidth : ℚ
  viewportHeight : ℚ
deriving DecidableEq, Repr

/-- The `GameEngine` constructor (viewport dimensions from the window). -/
def GameEngine.new (w h : ℚ) : GameEngine :=
  { player := Player.new 0 0, store := [], platforms := [],
    state := GameState.start, score := 0, gameSpeed := MOVE_SPEED_INITIAL,
    perfectStreak := 0, isFever := false,
    viewportWidth := w, viewportHeight := h }

/-! ### Spawner (`GameEngine.spawnPlatform`) -/

/-- The platform built by `spawnPlatform(y)` from the five draws. -/
def spawnedPlatform (vw : ℚ) (r : SpawnRands) (y : ℚ) : Platform :=
  let width := PLATFORM_WIDTH_MIN + r.rw * (PLATFORM_WIDTH_MAX - PLATFORM_WIDTH_MIN)
  let x := r.rx * (vw - width)
  let color := PLATFORM_COLORS.getD (Int.toNat ⌊r.rc * (PLATFORM_COLORS.length : ℚ)⌋) ""
  let p := Platform.new x y width color
  { p with vx := (if r.rs > 1/2 then 1 else -1) * (2 + r.rm * 3) }

/-- `GameEngine.spawnPlatform(y)`: allocate the platform in the store and
push its index onto the active array. -/
def GameEngine.spawnPlatform (r : SpawnRands) (y : ℚ) (e : GameEngine) : GameEngine :=
  { e with store := e.store ++ [spawnedPlatform e.viewportWidth r y],
           platforms := e.platforms ++ [e.store.length] }

/-! ### Reset and start (`GameEngine.resetGame`, `GameEngine.startGame`) -/

/-- `GameEngine.resetGame()`; `rs i` supplies the draws for the `i`-th
initial `spawnPlatform` call (`i = 1..5`). Returns the notification
events it fires, in order. -/
def GameEngine.resetGame (rs : ℕ → SpawnRands) (e : GameEngine) :
    GameEngine × List Event :=
  let e1 := { e with score := 0, gameSpeed := MOVE_SPEED_INITIAL,
                     perfectStreak := 0, isFever := false }
  let player0 := { Player.new (e.viewportWidth / 2) (e.viewportHeight * (4/5)) with
                   color := NEON_CYAN }
  let basePlatformY := e.viewportHeight * (4/5) + 40
  let basePlat := Platform.new (e.viewportWidth / 2 - 100) basePlatformY 200 NEON_MAGENTA
  let baseId := e1.store.length
  let e2 := { e1 with store := e1.store ++ [basePlat], platforms := [baseId],
                      player := { player0 with
                                  currentPlatform := some baseId,
                                  y := basePlat.y - player0.height / 2 } }
  let e3 := (List.range 5).foldl
    (fun acc i =>
      acc.spawnPlatform (rs (i + 1)) (basePlatformY - ((i : ℚ) + 1) * PLATFORM_SPACING))
    e2
  (e3, [Event.scoreUpdate 0, Event.comboChange 0, Event.feverChange false])

/-- `GameEngine.startGame()`. -/
def GameEngine.startGame (rs : ℕ → SpawnRands) (e : GameEngine) :
    GameEngine × List Event :=
  let (e1, evs) := e.resetGame rs
  ({ e1 with state := GameState.playing }, evs ++ [Event.stateChange GameState.playing])

/-! ### Input (`GameEngine.handleInput`) -/

/-- `GameEngine.handleInput`: in the `playing` state a jump trigger is
consumed iff `player.jumps < 2`, choosing the first-jump or double-jump
force; otherwise it is ignored. Fires no notifications. -/
def GameEngine.handleInput (e : GameEngine) : GameEngine :=
  match e.state with
  | GameState.playing =>
    if e.player.jumps < 2 then
      let force := if e.player.jumps = 0 then JUMP_FORCE else DOUBLE_JUMP_FORCE
      { e with player := e.player.jump force }
    else e
  | _ => e

/-! ### Tick phase 1: platform horizontal movement -/

/-- The platform part of the per-platform `forEach` body in
`GameEngine.update`: advance by `vx * speedMultiplier`, then clamp to a
viewport edge and invert `vx` on contact. (Only invoked when `vx ≠ 0`.) -/
def movedPlatform (vw mult : ℚ) (p : Platform) : Platform :=
  let moveX := p.vx * mult
  let x1 := p.x + moveX
  if x1 ≤ 0 then
    { p with x := 0, vx := -p.vx }
  else if x1 + p.width ≥ vw then
    { p with x := vw - p.width, vx := -p.vx }
  else
    { p with x := x1 }

/-- One iteration of the movement `forEach`, over the store and the
player (the player is dragged by the identical displacement when
resting on the moved platform). -/
def movePlatformStep (vw mult : ℚ) (sp : List Platform × Player) (pid : ℕ) :
    List Platform × Player :=
  match sp.1[pid]? with
  | none => sp
  | some p =>
    if p.vx = 0 then sp
    else
      let moveX := p.vx * mult
      let pl' := if sp.2.currentPlatform = some pid then
                   { sp.2 with x := sp.2.x + moveX }
                 else sp.2
      (sp.1.set pid (movedPlatform vw mult p), pl')

/-- The speed multiplier `1 + score * 0.05`. -/
def speedMultiplier (e : GameEngine) : ℚ := 1 + (e.score : ℚ) * (1/20)

/-- Tick phase 1: the movement `forEach` over the active array. -/
def GameEngine.movePlatforms (e : GameEngine) : GameEngine :=
  let sp := e.platforms.foldl (movePlatformStep e.viewportWidth (speedMultiplier e))
              (e.store, e.player)
  { e with store := sp.1, player := sp.2 }

/-! ### Tick phase 3: world scroll and recycling -/

/-- One iteration of the scroll `forEach`: shift a platform down. -/
def shiftStep (diff : ℚ) (store : List Platform) (pid : ℕ) : List Platform :=
  match store[pid]? with
  | none => store
  | some p => store.set pid { p with y := p.y + diff }

/-- The recycle check after the shift: if the bottom-most platform has
scrolled past `viewportHeight + 100`, drop it and spawn one platform
`PLATFORM_SPACING` above the last platform of the array. -/
def GameEngine.recycleStep (r : SpawnRands) (e : GameEngine) : GameEngine :=
  match e.platforms with
  | [] => e
  | p0 :: rest =>
    match e.store[p0]? with
    | none => e
    | some p =>
      if p.y > e.viewportHeight + 100 then
        let e1 := { e with platforms := rest }
        match rest.getLast? with
        | none => e1
        | some lid =>
          match e.store[lid]? with
          | none => e1
          | some lastP => e1.spawnPlatform r (lastP.y - PLATFORM_SPACING)
      else e

/-- Tick phase 3: if the player has risen above 60% of the viewport
height, clamp the player back to the threshold, shift every active
platform down by the overshoot, then recycle. -/
def GameEngine.scroll (r : SpawnRands) (e : GameEngine) : GameEngine :=
  let threshold := e.viewportHeight * (3/5)
  if e.player.y < threshold then
    let diff := threshold - e.player.y
    let e1 := { e with player := { e.player with y := threshold },
                       store := e.platforms.foldl (shiftStep diff) e.store }
    e1.recycleStep r
  else e

/-! ### Tick phase 4: collision and scoring -/

/-- The AABB landing test from `GameEngine.update` for one platform:
previous bottom at most 15 units below the surface, current bottom at or
below it, and horizontal overlap with the forgiving (half-width) hitbox. -/
def hitTest (store : List Platform) (pl : Player) (pid : ℕ) : Bool :=
  match store[pid]? with
  | none => false
  | some p =>
    let pLeft := p.x
    let pRight := p.x + p.width
    let playerBottom := pl.y + pl.height / 2
    let playerLeft := pl.x - pl.width / 4
    let playerRight := pl.x + pl.width / 4
    let prevY := pl.y - pl.vy
    decide ((prevY + pl.height / 2 ≤ p.y + 15 ∧ playerBottom ≥ p.y) ∧
            playerRight > pLeft ∧ playerLeft < pRight)

/-- `GameEngine.triggerPerfect(platform)`: bump the streak, notify it,
copy the platform's color onto the player, and enter fever at the
threshold (notifying `true` each time the branch runs). -/
def GameEngine.triggerPerfect (plat : Platform) (e : GameEngine) :
    GameEngine × List Event :=
  let streak' := e.perfectStreak + 1
  let e1 := { e with perfectStreak := streak',
                     player := { e.player with color := plat.color } }
  if streak' ≥ FEVER_THRESHOLD then
    ({ e1 with isFever := true },
     [Event.comboChange streak', Event.feverChange true])
  else
    (e1, [Event.comboChange streak'])

/-- The non-perfect branch of the scoring block: reset the streak and
clear fever, each only when it actually changes. -/
def GameEngine.comboBreak (e : GameEngine) : GameEngine × List Event :=
  let (e1, v1) := if e.perfectStreak > 0 then
                    ({ e with perfectStreak := 0 }, [Event.comboChange 0])
                  else (e, ([] : List Event))
  let (e2, v2) := if e1.isFever then
                    ({ e1 with isFever := false }, [Event.feverChange false])
                  else (e1, ([] : List Event))
  (e2, v1 ++ v2)

/-- The first-landing scoring block of `GameEngine.update`: mark the
platform landed, bump the raw score, notify the displayed score, then
run the perfect / non-perfect branch on the center distance. -/
def GameEngine.landingScore (pid : ℕ) (p : Platform) (e : GameEngine) :
    GameEngine × List Event :=
  let e1 := { e with store := e.store.set pid { p with landedOn := true },
                     score := e.score + 1 }
  let ev1 := Event.scoreUpdate
               (e1.score * (if e.isFever then FEVER_MULTIPLIER else 1))
  let pCenter := p.x + p.width / 2
  let dist := |e.player.x - pCenter|
  if dist < PERFECT_TOLERANCE then
    let (e2, evs2) := e1.triggerPerfect p
    (e2, ev1 :: evs2)
  else
    let (e2, evs2) := e1.comboBreak
    (e2, ev1 :: evs2)

/-- Tick phase 4: only while falling and unattached, land on the first
platform of the active array passing the hit test (`break` after it);
score only when that platform had not been landed on before. -/
def GameEngine.collide (e : GameEngine) : GameEngine × List Event :=
  if e.player.vy > 0 ∧ e.player.currentPlatform = none then
    match e.platforms.find? (hitTest e.store e.player) with
    | none => (e, [])
    | some pid =>
      match e.store[pid]? with
      | none => (e, [])
      | some p =>
        let e1 := { e with player := e.player.land p pid }
        if p.landedOn then (e1, [])
        else e1.landingScore pid p
  else (e, [])

/-! ### Tick phase 5: fall-out and game over -/

/-- `GameEngine.gameOver()`. -/
def GameEngine.gameOver (e : GameEngine) : GameEngine × List Event :=
  ({ e with state := GameState.gameover }, [Event.stateChange GameState.gameover])

/-- Tick phase 5: the fall-out check. -/
def GameEngine.fallCheck (e : GameEngine) : GameEngine × List Event :=
  if e.player.y > e.viewportHeight + 100 then e.gameOver else (e, [])

/-! ### The tick (`GameEngine.update`, `GameEngine.loop`) -/

/-- Phases 1–3 of `GameEngine.update`: platform movement, player
physics, world scroll. -/
def GameEngine.physicsPhase (r : SpawnRands) (e : GameEngine) : GameEngine :=
  let e1 := e.movePlatforms
  let e2 := { e1 with player := Player.update e1.store e1.player }
  e2.scroll r

/-- `GameEngine.update(dt)`. The source computes a frame delta `dt` but
never uses it inside `update`; the parameter is kept for fidelity.
`r` supplies the draws of the (at most one) recycle spawn. -/
def GameEngine.update (dt : ℚ) (r : SpawnRands) (e : GameEngine) :
    GameEngine × List Event :=
  let e3 := e.physicsPhase r
  let (e4, evs1) := e3.collide
  let (e5, evs2) := e4.fallCheck
  (e5, evs1 ++ evs2)

/-- One `GameEngine.loop` callback: run `update` only in the `playing`
state (drawing mutates no simulation state). -/
def GameEngine.loopStep (dt : ℚ) (r : SpawnRands) (e : GameEngine) :
    GameEngine × List Event :=
  if e.state = GameState.playing then e.update dt r else (e, [])

/-- `GameEngine.resize()` with the new window dimensions. -/
def GameEngine.resize (w h : ℚ) (e : GameEngine) : GameEngine :=
  { e with viewportWidth := w, viewportHeight := h }

/-! ### Operation sequences -/

/-- One externally triggered operation on the engine. -/
inductive Op where
  | start (rs : ℕ → SpawnRands)
  | input
  | tick (dt : ℚ) (r : SpawnRands)
  | resize (w h : ℚ)

/-- Apply one operation, returning the notifications it fires. -/
def stepOp (e : GameEngine) : Op → GameEngine × List Event
  | Op.start rs => e.startGame rs
  | Op.input => (e.handleInput, [])
  | Op.tick dt r => e.loopStep dt r
  | Op.resize w h => (e.resize w h, [])

/-- Run a list of operations, concatenating the notification traces. -/
def runOps (e : GameEngine) : List Op → GameEngine × List Event
  | [] => (e, [])
  | op :: ops =>
    let (e1, evs1) := stepOp e op
    let (e2, evs2) := runOps e1 ops
    (e2, evs1 ++ evs2)

/-- The net effect of the movement `forEach` body on one platform
(identity when `vx = 0`). -/
def moveOne (vw mult : ℚ) (p : Platform) : Platform :=
  if p.vx = 0 then p else movedPlatform vw mult p

/-! ### Lemmas about the platform-movement fold -/

theorem movedPlatform_y (vw mult : ℚ) (p : Platform) :
    (movedPlatform vw mult p).y = p.y := by
  unfold movedPlatform
  dsimp only
  split
  · rfl
  · split <;> rfl

theorem movedPlatform_landedOn (vw mult : ℚ) (p : Platform) :
    (movedPlatform vw mult p).landedOn = p.landedOn := by
  unfold movedPlatform
  dsimp only
  split
  · rfl
  · split <;> rfl

theorem movedPlatform_absVx (vw mult : ℚ) (p : Platform) :
    |(movedPlatform vw mult p).vx| = |p.vx| := by
  unfold movedPlatform
  dsimp only
  split
  · exact abs_neg p.vx
  · split
    · exact abs_neg p.vx
    · rfl

theorem moveOne_y (vw mult : ℚ) (p : Platform) : (moveOne vw mult p).y = p.y := by
  unfold moveOne; split
  · rfl
  · exact movedPlatform_y vw mult p

theorem moveOne_landedOn (vw mult : ℚ) (p : Platform) :
    (moveOne vw mult p).landedOn = p.landedOn := by
  unfold moveOne; split
  · rfl
  · exact movedPlatform_landedOn vw mult p

theorem moveOne_absVx (vw mult : ℚ) (p : Platform) :
    |(moveOne vw mult p).vx| = |p.vx| := by
  unfold moveOne; split
  · rfl
  · exact movedPlatform_absVx vw mult p

theorem movePlatformStep_player (vw mult : ℚ) (sp : List Platform × Player) (a : ℕ) :
    ∃ nx, (movePlatformStep vw mult sp a).2 = { sp.2 with x := nx } := by
  unfold movePlatformStep
  split
  · exact ⟨sp.2.x, rfl⟩
  · split
    · exact ⟨sp.2.x, rfl⟩
    · split
      · exact ⟨_, rfl⟩
      · exact ⟨sp.2.x, rfl⟩

theorem movePlatformStep_currentPlatform (vw mult : ℚ) (sp : List Platform × Player)
    (a : ℕ) : (movePlatformStep vw mult sp a).2.currentPlatform = sp.2.currentPlatform := by
  obtain ⟨nx, h⟩ := movePlatformStep_player vw mult sp a
  rw [h]

theorem foldMove_player (vw mult : ℚ) (l : List ℕ) (sp : List Platform × Player) :
    ∃ nx, (l.foldl (movePlatformStep vw mult) sp).2 = { sp.2 with x := nx } := by
  induction l generalizing sp with
  | nil => exact ⟨sp.2.x, rfl⟩
  | cons a l ih =>
    obtain ⟨n1, h1⟩ := movePlatformStep_player vw mult sp a
    obtain ⟨n2, h2⟩ := ih (movePlatformStep vw mult sp a)
    rw [List.foldl_cons]
    exact ⟨n2, by rw [h2, h1]⟩

theorem movePlatformStep_fst_ne (vw mult : ℚ) (sp : List Platform × Player)
    (a i : ℕ) (h : a ≠ i) :
    (movePlatformStep vw mult sp a).1[i]? = sp.1[i]? := by
  unfold movePlatformStep
  split
  · rfl
  · split
    · rfl
    · exact List.getElem?_set_ne h

theorem movePlatformStep_length (vw mult : ℚ) (sp : List Platform × Player) (a : ℕ) :
    (movePlatformStep vw mult sp a).1.length = sp.1.length := by
  unfold movePlatformStep
  split
  · rfl
  · split
    · rfl
    · exact List.length_set sp.1 a _

theorem foldMove_length (vw mult : ℚ) (l : List ℕ) (sp : List Platform × Player) :
    (l.foldl (movePlatformStep vw mult) sp).1.length = sp.1.length := by
  induction l generalizing sp with
  | nil => rfl
  | cons a l ih =>
    rw [List.foldl_cons, ih, movePlatformStep_length]

theorem foldMove_fst_not_mem (vw mult : ℚ) (l : List ℕ) (sp : List Platform × Player)
    (i : ℕ) (h : i ∉ l) :
    (l.foldl (movePlatformStep vw mult) sp).1[i]? = sp.1[i]? := by
  induction l generalizing sp with
  | nil => rfl
  | cons a l ih =>
    rw [List.foldl_cons, ih _ (fun hm => h (List.mem_cons_of_mem a hm)),
        movePlatformStep_fst_ne]
    exact fun hai => h (hai ▸ List.mem_cons_self a l)

theorem foldMove_fst_mem (vw mult : ℚ) (l : List ℕ) (sp : List Platform × Player)
    (i : ℕ) (p : Platform) (hnd : l.Nodup) (hmem : i ∈ l) (hget : sp.1[i]? = some p) :
    (l.foldl (movePlatformStep vw mult) sp).1[i]? = some (moveOne vw mult p) := by
  induction l generalizing sp with
  | nil => cases hmem
  | cons a l ih =>
    rw [List.foldl_cons]
    rcases List.mem_cons.mp hmem with rfl | hmem'
    · have hnotl : i ∉ l := (List.nodup_cons.mp hnd).1
      rw [foldMove_fst_not_mem vw mult l _ i hnotl]
      unfold movePlatformStep
      rw [hget]
      dsimp only
      split
      · rw [hget]
        unfold moveOne
        split
        · rfl
        · simp_all
      · have hi : i < sp.1.length := (List.getElem?_eq_some.mp hget).1
        rw [List.getElem?_set_self (by simpa using hi)]
        unfold moveOne
        split
        · simp_all
        · rfl
    · have hai : a ≠ i := fun h => (List.nodup_cons.mp hnd).1 (h ▸ hmem')
      exact ih _ (List.nodup_cons.mp hnd).2 hmem'
        (by rw [movePlatformStep_fst_ne vw mult sp a i hai]; exact hget)

theorem movePlatformStep_proj {α : Type} (f : Platform → α) (vw mult : ℚ)
    (hf : ∀ p, f (movedPlatform vw mult p) = f p)
    (sp : List Platform × Player) (a i : ℕ) :
    ((movePlatformStep vw mult sp a).1[i]?).map f = (sp.1[i]?).map f := by
  unfold movePlatformStep
  split
  · rfl
  · split
    · rfl
    · rcases eq_or_ne a i with rfl | hne
      · next p hp _ =>
        have hi : a < sp.1.length := (List.getElem?_eq_some.mp hp).1
        rw [List.getElem?_set_self (by simpa using hi), hp]
        simp [hf]
      · rw [List.getElem?_set_ne hne]

theorem foldMove_proj {α : Type} (f : Platform → α) (vw mult : ℚ)
    (hf : ∀ p, f (movedPlatform vw mult p) = f p)
    (l : List ℕ) (sp : List Platform × Player) (i : ℕ) :
    ((l.foldl (movePlatformStep vw mult) sp).1[i]?).map f = (sp.1[i]?).map f := by
  induction l generalizing sp with
  | nil => rfl
  | cons a l ih =>
    rw [List.foldl_cons, ih, movePlatformStep_proj f vw mult hf]

theorem movePlatformStep_player_ne (vw mult : ℚ) (sp : List Platform × Player)
    (a : ℕ) (h : sp.2.currentPlatform ≠ some a) :
    (movePlatformStep vw mult sp a).2 = sp.2 := by
  unfold movePlatformStep
  split
  · rfl
  · split
    · rfl
    · rfl

theorem movePlatformStep_player_cur (vw mult : ℚ) (sp : List Platform × Player)
    (a : ℕ) (p : Platform) (hget : sp.1[a]? = some p) (hvx : p.vx ≠ 0)
    (hcur : sp.2.currentPlatform = some a) :
    (movePlatformStep vw mult sp a).2 = { sp.2 with x := sp.2.x + p.vx * mult } := by
  unfold movePlatformStep
  rw [hget]
  dsimp only
  split
  · simp_all
  · rfl

theorem foldMove_player_not_mem (vw mult : ℚ) (l : List ℕ)
    (sp : List Platform × Player) (i : ℕ)
    (hcur : sp.2.currentPlatform = some i) (h : i ∉ l) :
    (l.foldl (movePlatformStep vw mult) sp).2 = sp.2 := by
  induction l generalizing sp with
  | nil => rfl
  | cons a l ih =>
    have hai : i ≠ a := fun hh => h (hh ▸ List.mem_cons_self a l)
    have hstep : (movePlatformStep vw mult sp a).2 = sp.2 :=
      movePlatformStep_player_ne vw mult sp a (by rw [hcur]; simp [hai])
    rw [List.foldl_cons, ih _ (by rw [hstep]; exact hcur)
      (fun hm => h (List.mem_cons_of_mem a hm)), hstep]

theorem foldMove_player_x_mem (vw mult : ℚ) (l : List ℕ)
    (sp : List Platform × Player) (i : ℕ) (p : Platform)
    (hnd : l.Nodup) (hmem : i ∈ l) (hcur : sp.2.currentPlatform = some i)
    (hget : sp.1[i]? = some p) (hvx : p.vx ≠ 0) :
    (l.foldl (movePlatformStep vw mult) sp).2 = { sp.2 with x := sp.2.x + p.vx * mult } := by
  induction l generalizing sp with
  | nil => cases hmem
  | cons a l ih =>
    rw [List.foldl_cons]
    rcases List.mem_cons.mp hmem with rfl | hmem'
    · have hnotl : i ∉ l := (List.nodup_cons.mp hnd).1
      have hstep := movePlatformStep_player_cur vw mult sp i p hget hvx hcur
      rw [foldMove_player_not_mem vw mult l _ i (by rw [hstep]; exact hcur) hnotl, hstep]
    · have hai : a ≠ i := fun h => (List.nodup_cons.mp hnd).1 (h ▸ hmem')
      have hstep : (movePlatformStep vw mult sp a).2 = sp.2 :=
        movePlatformStep_player_ne vw mult sp a (by rw [hcur]; simp [Ne.symm hai])
      rw [ih _ (List.nodup_cons.mp hnd).2 hmem' (by rw [hstep]; exact hcur)
        (by rw [movePlatformStep_fst_ne vw mult sp a i hai]; exact hget) , hstep]

theorem foldMove_player_x_zero (vw mult : ℚ) (l : List ℕ)
    (sp : List Platform × Player) (i : ℕ) (p : Platform)
    (hnd : l.Nodup) (hcur : sp.2.currentPlatform = some i)
    (hget : sp.1[i]? = some p) (hvx : p.vx = 0) :
    (l.foldl (movePlatformStep vw mult) sp).2 = sp.2 := by
  induction l generalizing sp with
  | nil => rfl
  | cons a l ih =>
    rw [List.foldl_cons]
    rcases eq_or_ne a i with rfl | hai
    · have hstep : movePlatformStep vw mult sp a = sp := by
        unfold movePlatformStep
        rw [hget]
        dsimp only
        rw [if_pos hvx]
      rw [hstep]
      exact foldMove_player_not_mem vw mult l sp a hcur (List.nodup_cons.mp hnd).1
    · have hstep : (movePlatformStep vw mult sp a).2 = sp.2 :=
        movePlatformStep_player_ne vw mult sp a (by rw [hcur]; simp [Ne.symm hai])
      rw [ih _ (List.nodup_cons.mp hnd).2 (by rw [hstep]; exact hcur)
        (by rw [movePlatformStep_fst_ne vw mult sp a i hai]; exact hget), hstep]

/-! ### Lemmas about the scroll shift fold -/

theorem shiftStep_ne (diff : ℚ) (store : List Platform) (a i : ℕ) (h : a ≠ i) :
    (shiftStep diff store a)[i]? = store[i]? := by
  unfold shiftStep
  split
  · rfl
  · exact List.getElem?_set_ne h

theorem shiftStep_length (diff : ℚ) (store : List Platform) (a : ℕ) :
    (shiftStep diff store a).length = store.length := by
  unfold shiftStep
  split
  · rfl
  · exact List.length_set store a _

theorem foldShift_length (diff : ℚ) (l : List ℕ) (store : List Platform) :
    (l.foldl (shiftStep diff) store).length = store.length := by
  induction l generalizing store with
  | nil => rfl
  | cons a l ih => rw [List.foldl_cons, ih, shiftStep_length]

theorem foldShift_not_mem (diff : ℚ) (l : List ℕ) (store : List Platform)
    (i : ℕ) (h : i ∉ l) :
    (l.foldl (shiftStep diff) store)[i]? = store[i]? := by
  induction l generalizing store with
  | nil => rfl
  | cons a l ih =>
    rw [List.foldl_cons, ih _ (fun hm => h (List.mem_cons_of_mem a hm)),
        shiftStep_ne diff store a i (fun hai => h (hai ▸ List.mem_cons_self a l))]

theorem foldShift_mem (diff : ℚ) (l : List ℕ) (store : List Platform)
    (i : ℕ) (p : Platform) (hnd : l.Nodup) (hmem : i ∈ l)
    (hget : store[i]? = some p) :
    (l.foldl (shiftStep diff) store)[i]? = some { p with y := p.y + diff } := by
  induction l generalizing store with
  | nil => cases hmem
  | cons a l ih =>
    rw [List.foldl_cons]
    rcases List.mem_cons.mp hmem with rfl | hmem'
    · have hnotl : i ∉ l := (List.nodup_cons.mp hnd).1
      rw [foldShift_not_mem diff l _ i hnotl]
      unfold shiftStep
      rw [hget]
      dsimp only
      have hi : i < store.length := (List.getElem?_eq_some.mp hget).1
      rw [List.getElem?_set_self (by simpa using hi)]
    · have hai : a ≠ i := fun h => (List.nodup_cons.mp hnd).1 (h ▸ hmem')
      exact ih _ (List.nodup_cons.mp hnd).2 hmem'
        (by rw [shiftStep_ne diff store a i hai]; exact hget)

theorem shiftStep_proj {α : Type} (f : Platform → α) (diff : ℚ)
    (hf : ∀ p, f { p with y := p.y + diff } = f p)
    (store : List Platform) (a i : ℕ) :
    ((shiftStep diff store a)[i]?).map f = (store[i]?).map f := by
  unfold shiftStep
  split
  · rfl
  · rcases eq_or_ne a i with rfl | hne
    · next p hp =>
      have hi : a < store.length := (List.getElem?_eq_some.mp hp).1
      rw [List.getElem?_set_self (by simpa using hi), hp]
      simp [hf]
    · rw [List.getElem?_set_ne hne]

theorem foldShift_proj {α : Type} (f : Platform → α) (diff : ℚ)
    (hf : ∀ p, f { p with y := p.y + diff } = f p)
    (l : List ℕ) (store : List Platform) (i : ℕ) :
    ((l.foldl (shiftStep diff) store)[i]?).map f = (store[i]?).map f := by
  induction l generalizing store with
  | nil => rfl
  | cons a l ih =>
    rw [List.foldl_cons, ih, shiftStep_proj f diff hf]

/-! ### Field preservation through the tick phases -/

theorem movePlatforms_platforms (e : GameEngine) :
    e.movePlatforms.platforms = e.platforms := rfl

theorem movePlatforms_misc (e : GameEngine) :
    e.movePlatforms.state = e.state ∧ e.movePlatforms.score = e.score ∧
    e.movePlatforms.perfectStreak = e.perfectStreak ∧
    e.movePlatforms.isFever = e.isFever ∧
    e.movePlatforms.viewportWidth = e.viewportWidth ∧
    e.movePlatforms.viewportHeight = e.viewportHeight :=
  ⟨rfl, rfl, rfl, rfl, rfl, rfl⟩

theorem movePlatforms_player (e : GameEngine) :
    ∃ nx, e.movePlatforms.player = { e.player with x := nx } :=
  foldMove_player e.viewportWidth (speedMultiplier e) e.platforms (e.store, e.player)

theorem movePlatforms_store_length (e : GameEngine) :
    e.movePlatforms.store.length = e.store.length :=
  foldMove_length e.viewportWidth (speedMultiplier e) e.platforms (e.store, e.player)

theorem spawnPlatform_misc (r : SpawnRands) (y : ℚ) (e : GameEngine) :
    (e.spawnPlatform r y).player = e.player ∧
    (e.spawnPlatform r y).state = e.state ∧
    (e.spawnPlatform r y).score = e.score ∧
    (e.spawnPlatform r y).perfectStreak = e.perfectStreak ∧
    (e.spawnPlatform r y).isFever = e.isFever ∧
    (e.spawnPlatform r y).viewportWidth = e.viewportWidth ∧
    (e.spawnPlatform r y).viewportHeight = e.viewportHeight :=
  ⟨rfl, rfl, rfl, rfl, rfl, rfl, rfl⟩

theorem recycleStep_misc (r : SpawnRands) (e : GameEngine) :
    (e.recycleStep r).player = e.player ∧
    (e.recycleStep r).state = e.state ∧
    (e.recycleStep r).score = e.score ∧
    (e.recycleStep r).perfectStreak = e.perfectStreak ∧
    (e.recycleStep r).isFever = e.isFever ∧
    (e.recycleStep r).viewportWidth = e.viewportWidth ∧
    (e.recycleStep r).viewportHeight = e.viewportHeight := by
  unfold GameEngine.recycleStep GameEngine.spawnPlatform
  repeat' split
  all_goals exact ⟨rfl, rfl, rfl, rfl, rfl, rfl, rfl⟩

theorem scroll_misc (r : SpawnRands) (e : GameEngine) :
    (e.scroll r).state = e.state ∧
    (e.scroll r).score = e.score ∧
    (e.scroll r).perfectStreak = e.perfectStreak ∧
    (e.scroll r).isFever = e.isFever ∧
    (e.scroll r).viewportWidth = e.viewportWidth ∧
    (e.scroll r).viewportHeight = e.viewportHeight ∧
    (e.scroll r).player.vy = e.player.vy ∧
    (e.scroll r).player.currentPlatform = e.player.currentPlatform ∧
    (e.scroll r).player.x = e.player.x ∧
    (e.scroll r).player.height = e.player.height ∧
    (e.scroll r).player.jumps = e.player.jumps ∧
    (e.scroll r).player.color = e.player.color := by
  unfold GameEngine.scroll
  dsimp only
  split
  · have h := recycleStep_misc r
      { e with player := { e.player with y := e.viewportHeight * (3/5) },
               store := e.platforms.foldl
                 (shiftStep (e.viewportHeight * (3/5) - e.player.y)) e.store }
    refine ⟨h.2.1, h.2.2.1, h.2.2.2.1, h.2.2.2.2.1, h.2.2.2.2.2.1, h.2.2.2.2.2.2,
      ?_, ?_, ?_, ?_, ?_, ?_⟩ <;> rw [h.1]
  · exact ⟨rfl, rfl, rfl, rfl, rfl, rfl, rfl, rfl, rfl, rfl, rfl, rfl⟩

theorem physicsPhase_misc (r : SpawnRands) (e : GameEngine) :
    (e.physicsPhase r).state = e.state ∧
    (e.physicsPhase r).score = e.score ∧
    (e.physicsPhase r).perfectStreak = e.perfectStreak ∧
    (e.physicsPhase r).isFever = e.isFever ∧
    (e.physicsPhase r).viewportWidth = e.viewportWidth ∧
    (e.physicsPhase r).viewportHeight = e.viewportHeight := by
  unfold GameEngine.physicsPhase
  have h := scroll_misc r
    { e.movePlatforms with player := Player.update e.movePlatforms.store e.movePlatforms.player }
  exact ⟨h.1, h.2.1, h.2.2.1, h.2.2.2.1, h.2.2.2.2.1, h.2.2.2.2.2.1⟩

theorem triggerPerfect_misc (p : Platform) (e : GameEngine) :
    (e.triggerPerfect p).1.state = e.state ∧
    (e.triggerPerfect p).1.platforms = e.platforms ∧
    (e.triggerPerfect p).1.viewportWidth = e.viewportWidth ∧
    (e.triggerPerfect p).1.viewportHeight = e.viewportHeight ∧
    (e.triggerPerfect p).1.store = e.store ∧
    (e.triggerPerfect p).1.score = e.score := by
  unfold GameEngine.triggerPerfect
  dsimp only
  split
  · exact ⟨rfl, rfl, rfl, rfl, rfl, rfl⟩
  · exact ⟨rfl, rfl, rfl, rfl, rfl, rfl⟩

theorem comboBreak_misc (e : GameEngine) :
    (e.comboBreak).1.state = e.state ∧
    (e.comboBreak).1.platforms = e.platforms ∧
    (e.comboBreak).1.viewportWidth = e.viewportWidth ∧
    (e.comboBreak).1.viewportHeight = e.viewportHeight ∧
    (e.comboBreak).1.store = e.store ∧
    (e.comboBreak).1.score = e.score ∧
    (e.comboBreak).1.player = e.player := by
  unfold GameEngine.comboBreak
  dsimp only
  repeat' split
  all_goals exact ⟨rfl, rfl, rfl, rfl, rfl, rfl, rfl⟩

theorem landingScore_misc (pid : ℕ) (p : Platform) (e : GameEngine) :
    (e.landingScore pid p).1.state = e.state ∧
    (e.landingScore pid p).1.platforms = e.platforms ∧
    (e.landingScore pid p).1.viewportWidth = e.viewportWidth ∧
    (e.landingScore pid p).1.viewportHeight = e.viewportHeight := by
  unfold GameEngine.landingScore
  dsimp only
  split
  · have h := triggerPerfect_misc p
      { e with store := e.store.set pid { p with landedOn := true }, score := e.score + 1 }
    exact ⟨h.1, h.2.1, h.2.2.1, h.2.2.2.1⟩
  · have h := comboBreak_misc
      { e with store := e.store.set pid { p with landedOn := true }, score := e.score + 1 }
    exact ⟨h.1, h.2.1, h.2.2.1, h.2.2.2.1⟩

theorem collide_misc (e : GameEngine) :
    (e.collide).1.state = e.state ∧
    (e.collide).1.platforms = e.platforms ∧
    (e.collide).1.viewportWidth = e.viewportWidth ∧
    (e.collide).1.viewportHeight = e.viewportHeight := by
  unfold GameEngine.collide
  split
  · split
    · exact ⟨rfl, rfl, rfl, rfl⟩
    · split
      · exact ⟨rfl, rfl, rfl, rfl⟩
      · split
        · exact ⟨rfl, rfl, rfl, rfl⟩
        · exact landingScore_misc _ _ _
  · exact ⟨rfl, rfl, rfl, rfl⟩

theorem fallCheck_misc (e : GameEngine) :
    (e.fallCheck).1.player = e.player ∧
    (e.fallCheck).1.score = e.score ∧
    (e.fallCheck).1.perfectStreak = e.perfectStreak ∧
    (e.fallCheck).1.isFever = e.isFever ∧
    (e.fallCheck).1.store = e.store ∧
    (e.fallCheck).1.platforms = e.platforms ∧
    (e.fallCheck).1.viewportWidth = e.viewportWidth ∧
    (e.fallCheck).1.viewportHeight = e.viewportHeight := by
  unfold GameEngine.fallCheck GameEngine.gameOver
  split
  · exact ⟨rfl, rfl, rfl, rfl, rfl, rfl, rfl, rfl⟩
  · exact ⟨rfl, rfl, rfl, rfl, rfl, rfl, rfl, rfl⟩

theorem fallCheck_state (e : GameEngine) :
    (e.fallCheck).1.state =
      (if e.player.y > e.viewportHeight + 100 then GameState.gameover else e.state) ∧
    (e.fallCheck).2 =
      (if e.player.y > e.viewportHeight + 100 then
        [Event.stateChange GameState.gameover] else []) := by
  unfold GameEngine.fallCheck GameEngine.gameOver
  split
  · exact ⟨rfl, rfl⟩
  · exact ⟨rfl, rfl⟩

/-! ### Unfolding lemmas for `handleInput` -/

theorem handleInput_playing (e : GameEngine) (h : e.state = GameState.playing) :
    e.handleInput =
      if e.player.jumps < 2 then
        { e with player :=
            e.player.jump (if e.player.jumps = 0 then JUMP_FORCE else DOUBLE_JUMP_FORCE) }
      else e := by
  unfold GameEngine.handleInput
  rw [h]

theorem handleInput_not_playing (e : GameEngine) (h : e.state ≠ GameState.playing) :
    e.handleInput = e := by
  unfold GameEngine.handleInput
  match hs : e.state with
  | GameState.start => rfl
  | GameState.playing => exact absurd hs h
  | GameState.gameover => rfl

/-! ### Concrete witness scenarios -/

/-- A stationary platform of width 40 centered at x = 200. -/
def cPlat (ypos : ℚ) : Platform :=
  { x := 180, y := ypos, width := 40, height := 20, color := NEON_CYAN,
    vx := 0, passed := false, landedOn := false }

/-- A mid-game state: the player rests on the bottom platform of a
column of four stationary platforms, all centered under the player. -/
def S0 : GameEngine :=
  { player := { x := 200, y := 480, vx := 0, vy := 0, width := 40, height := 40,
                color := WHITE, jumps := 0, currentPlatform := some 0 },
    store := [cPlat 500, cPlat 350, cPlat 200, cPlat 50],
    platforms := [0, 1, 2, 3],
    state := GameState.playing, score := 0, gameSpeed := 3,
    perfectStreak := 0, isFever := false,
    viewportWidth := 400, viewportHeight := 600 }

def r0 : SpawnRands := ⟨0, 0, 0, 0, 0⟩

def ticksN (n : ℕ) : List Op := List.replicate n (Op.tick 1 r0)

/-- Jump, wait 80 ticks, jump, wait, jump, wait: produces three
consecutive perfect landings from `S0`. -/
def opsA : List Op :=
  [Op.input] ++ ticksN 80 ++ [Op.input] ++ ticksN 80 ++ [Op.input] ++ ticksN 80

/-! ### Claim C7 -/

/-- **C7.** A jump command is consumed exactly when the actor's
jump-count is less than 2 and silently ignored otherwise: from
jump-count 0 it sets `vy` to the first-jump force (-15) and jump-count
to 1; from jump-count 1 it sets `vy` to the double-jump force (-12) and
jump-count to 2; at jump-count 2 it leaves the whole engine unchanged. -/
theorem claim7_jump_consumption (e : GameEngine) (h : e.state = GameState.playing) :
    (e.player.jumps = 0 →
      e.handleInput.player.vy = JUMP_FORCE ∧ e.handleInput.player.jumps = 1 ∧
      JUMP_FORCE = -15) ∧
    (e.player.jumps = 1 →
      e.handleInput.player.vy = DOUBLE_JUMP_FORCE ∧ e.handleInput.player.jumps = 2 ∧
      DOUBLE_JUMP_FORCE = -12) ∧
    (2 ≤ e.player.jumps → e.handleInput = e) := by
  rw [handleInput_playing e h]
  refine ⟨fun hj => ?_, fun hj => ?_, fun hj => ?_⟩
  · rw [if_pos (by omega), if_pos hj]
    exact ⟨rfl, by show e.player.jumps + 1 = 1; omega, rfl⟩
  · rw [if_pos (by omega), if_neg (by omega)]
    exact ⟨rfl, by show e.player.jumps + 1 = 2; omega, rfl⟩
  · rw [if_neg (by omega)]

theorem claim7_witness :
    S0.state = GameState.playing ∧ S0.player.jumps = 0 ∧
    S0.handleInput.player.vy = JUMP_FORCE ∧ S0.handleInput.player.jumps = 1 :=
  ⟨rfl, rfl, (claim7_jump_consumption S0 rfl).1 rfl |>.1,
    (claim7_jump_consumption S0 rfl).1 rfl |>.2.1⟩

/-! ### Claim C9 -/

/-- A moving platform for the C9 witness. -/
def pm9 : Platform :=
  { x := 100, y := 300, width := 40, height := 20, color := NEON_CYAN,
    vx := 2, passed := false, landedOn := false }

def W9 : GameEngine :=
  { player := { x := 200, y := 100, vx := 0, vy := 0, width := 40, height := 40,
                color := WHITE, jumps := 0, currentPlatform := some 0 },
    store := [pm9], platforms := [0],
    state := GameState.playing, score := 0, gameSpeed := 3,
    perfectStreak := 0, isFever := false,
    viewportWidth := 400, viewportHeight := 600 }

/-- **C9.** In the per-tick movement pass, every platform with nonzero
horizontal velocity advances its position by `vx` times the speed
multiplier `1 + rawScore * 0.05`; if the actor rests on that platform
the actor's `x` changes by the identical displacement; and on contact
with a viewport edge the platform position is clamped to that edge and
the sign of `vx` is inverted. -/
theorem claim9_platform_motion (e : GameEngine) (pid : ℕ) (p : Platform)
    (hnd : e.platforms.Nodup) (hmem : pid ∈ e.platforms)
    (hget : e.store[pid]? = some p) (hvx : p.vx ≠ 0) :
    (e.movePlatforms.store[pid]? =
       some (movedPlatform e.viewportWidth (speedMultiplier e) p)) ∧
    (speedMultiplier e = 1 + (e.score : ℚ) * (1/20)) ∧
    (e.player.currentPlatform = some pid →
       e.movePlatforms.player.x = e.player.x + p.vx * speedMultiplier e) ∧
    (p.x + p.vx * speedMultiplier e ≤ 0 →
       movedPlatform e.viewportWidth (speedMultiplier e) p =
         { p with x := 0, vx := -p.vx }) ∧
    (0 < p.x + p.vx * speedMultiplier e →
       p.x + p.vx * speedMultiplier e + p.width ≥ e.viewportWidth →
       movedPlatform e.viewportWidth (speedMultiplier e) p =
         { p with x := e.viewportWidth - p.width, vx := -p.vx }) ∧
    (0 < p.x + p.vx * speedMultiplier e →
       p.x + p.vx * speedMultiplier e + p.width < e.viewportWidth →
       movedPlatform e.viewportWidth (speedMultiplier e) p =
         { p with x := p.x + p.vx * speedMultiplier e }) := by
  refine ⟨?_, rfl, fun hc => ?_, fun h1 => ?_, fun h1 h2 => ?_, fun h1 h2 => ?_⟩
  · have h := foldMove_fst_mem e.viewportWidth (speedMultiplier e) e.platforms
      (e.store, e.player) pid p hnd hmem hget
    unfold GameEngine.movePlatforms
    dsimp only
    rw [h]
    unfold moveOne
    rw [if_neg hvx]
  · have h := foldMove_player_x_mem e.viewportWidth (speedMultiplier e) e.platforms
      (e.store, e.player) pid p hnd hmem hc hget hvx
    unfold GameEngine.movePlatforms
    dsimp only
    rw [h]
  · unfold movedPlatform
    dsimp only
    rw [if_pos h1]
  · unfold movedPlatform
    dsimp only
    rw [if_neg (not_le.mpr h1), if_pos h2]
  · unfold movedPlatform
    dsimp only
    rw [if_neg (not_le.mpr h1), if_neg (not_le.mpr h2)]

set_option maxRecDepth 8000 in
unseal Rat.add Rat.mul Rat.sub Rat.inv in
theorem claim9_witness :
    W9.platforms.Nodup ∧ pm9.vx ≠ 0 ∧
    W9.movePlatforms.store[0]? = some { pm9 with x := 102 } ∧
    W9.movePlatforms.player.x = 202 := by
  have h := claim9_platform_motion W9 0 pm9 (by decide) (by decide) rfl (by decide)
  refine ⟨by decide, by decide, ?_, ?_⟩
  · rw [h.1]
    decide
  · rw [h.2.2.1 rfl]
    decide

/-! ### Characterization of a first qualifying landing -/

theorem collide_landing (e : GameEngine) (pid : ℕ) (p : Platform)
    (hv : e.player.vy > 0) (hcur : e.player.currentPlatform = none)
    (hfind : e.platforms.find? (hitTest e.store e.player) = some pid)
    (hget : e.store[pid]? = some p) (hlo : p.landedOn = false) :
    e.collide = ({ e with player := e.player.land p pid }).landingScore pid p := by
  unfold GameEngine.collide
  rw [if_pos (⟨hv, hcur⟩ : e.player.vy > 0 ∧ e.player.currentPlatform = none), hfind]
  dsimp only
  rw [hget]
  dsimp only
  rw [if_neg (by simp [hlo])]

theorem landingScore_perfect (e : GameEngine) (pid : ℕ) (p : Platform)
    (hdist : |e.player.x - (p.x + p.width / 2)| < PERFECT_TOLERANCE)
    (hpidlt : pid < e.store.length) :
    (e.landingScore pid p).1.perfectStreak = e.perfectStreak + 1 ∧
    (e.landingScore pid p).1.score = e.score + 1 ∧
    (e.landingScore pid p).1.player.color = p.color ∧
    (e.landingScore pid p).1.store[pid]? = some { p with landedOn := true } ∧
    (e.landingScore pid p).2 =
      Event.scoreUpdate ((e.score + 1) * (if e.isFever then FEVER_MULTIPLIER else 1)) ::
      Event.comboChange (e.perfectStreak + 1) ::
      (if e.perfectStreak + 1 ≥ FEVER_THRESHOLD then [Event.feverChange true] else []) ∧
    (e.perfectStreak + 1 ≥ FEVER_THRESHOLD → (e.landingScore pid p).1.isFever = true) ∧
    (e.perfectStreak + 1 < FEVER_THRESHOLD → (e.landingScore pid p).1.isFever = e.isFever) := by
  unfold GameEngine.landingScore GameEngine.triggerPerfect
  dsimp only
  rw [if_pos hdist]
  by_cases hf : e.perfectStreak + 1 ≥ FEVER_THRESHOLD
  · rw [if_pos hf, if_pos hf]
    refine ⟨rfl, rfl, rfl, ?_, rfl, fun _ => rfl, fun hlt => absurd hf (by omega)⟩
    rw [List.getElem?_set_self (by simpa using hpidlt)]
  · rw [if_neg hf, if_neg hf]
    refine ⟨rfl, rfl, rfl, ?_, rfl, fun hge => absurd hge hf, fun _ => rfl⟩
    rw [List.getElem?_set_self (by simpa using hpidlt)]

theorem update_eq (e : GameEngine) (dt : ℚ) (r : SpawnRands) :
    e.update dt r =
      ((((e.physicsPhase r).collide).1.fallCheck).1,
        ((e.physicsPhase r).collide).2 ++ (((e.physicsPhase r).collide).1.fallCheck).2) :=
  rfl

/-- Full effect of one tick whose collision pass lands, for the first
time, on a platform `pid` whose center is within the perfect tolerance
of the actor's center. All hypotheses are stated on the post-physics
state `e.physicsPhase r`, which the collision pass inspects. -/
theorem update_perfect_landing (e : GameEngine) (dt : ℚ) (r : SpawnRands)
    (pid : ℕ) (p : Platform)
    (hv : (e.physicsPhase r).player.vy > 0)
    (hcur : (e.physicsPhase r).player.currentPlatform = none)
    (hfind : (e.physicsPhase r).platforms.find?
       (hitTest (e.physicsPhase r).store (e.physicsPhase r).player) = some pid)
    (hget : (e.physicsPhase r).store[pid]? = some p)
    (hlo : p.landedOn = false)
    (hdist : |(e.physicsPhase r).player.x - (p.x + p.width / 2)| < PERFECT_TOLERANCE) :
    (e.update dt r).1.perfectStreak = e.perfectStreak + 1 ∧
    (e.update dt r).1.score = e.score + 1 ∧
    Event.comboChange (e.perfectStreak + 1) ∈ (e.update dt r).2 ∧
    Event.scoreUpdate ((e.score + 1) * (if e.isFever then FEVER_MULTIPLIER else 1))
      ∈ (e.update dt r).2 ∧
    (e.update dt r).1.player.color = p.color ∧
    ((e.update dt r).1.store[pid]?).map (fun q => q.color) = some p.color ∧
    (e.perfectStreak + 1 ≥ FEVER_THRESHOLD → (e.update dt r).1.isFever = true) ∧
    (e.perfectStreak + 1 < FEVER_THRESHOLD → (e.update dt r).1.isFever = e.isFever) := by
  have hphys := physicsPhase_misc r e
  have hcol := collide_landing (e.physicsPhase r) pid p hv hcur hfind hget hlo
  have hL := landingScore_perfect
    { e.physicsPhase r with player := (e.physicsPhase r).player.land p pid } pid p
    (by simpa [Player.land] using hdist)
    (by simpa using (List.getElem?_eq_some.mp hget).1)
  have hFm := fallCheck_misc ((e.physicsPhase r).collide).1
  have hFs := fallCheck_state ((e.physicsPhase r).collide).1
  rw [update_eq]
  dsimp only
  rw [hcol] at hFm hFs ⊢
  have hstreak0 :
      ({ e.physicsPhase r with
          player := (e.physicsPhase r).player.land p pid }).perfectStreak =
        e.perfectStreak := hphys.2.2.1
  have hscore0 :
      ({ e.physicsPhase r with
          player := (e.physicsPhase r).player.land p pid }).score = e.score := hphys.2.1
  have hfev0 :
      ({ e.physicsPhase r with
          player := (e.physicsPhase r).player.land p pid }).isFever = e.isFever :=
    hphys.2.2.2.1
  rw [hstreak0, hscore0, hfev0] at hL
  refine ⟨?_, ?_, ?_, ?_, ?_, ?_, ?_, ?_⟩
  · rw [hFm.2.2.1, hL.1]
  · rw [hFm.2.1, hL.2.1]
  · rw [List.mem_append, hL.2.2.2.2.1]
    exact Or.inl (by simp)
  · rw [List.mem_append, hL.2.2.2.2.1]
    exact Or.inl (by simp)
  · rw [show ∀ (q : GameEngine × List Event), (q.1.fallCheck.1).player = q.1.fallCheck.1.player from fun q => rfl]
    rw [hFm.1, hL.2.2.1]
  · rw [hFm.2.2.2.2.1, hL.2.2.2.1]
    rfl
  · intro hge
    rw [hFm.2.2.2.1, hL.2.2.2.2.2.1 hge]
  · intro hlt
    rw [hFm.2.2.2.1, hL.2.2.2.2.2.2 hlt]
/-! ### Claim C1 (corrected) -/

/-- The platform of the C1 counterexample scenario. -/
def pc1 : Platform :=
  { x := 180, y := 500, width := 40, height := 20, color := NEON_MAGENTA,
    vx := 0, passed := false, landedOn := false }

/-- A falling player one tick away from a dead-center first landing on
`pc1`. -/
def W1 : GameEngine :=
  { player := { x := 200, y := 472, vx := 0, vy := 19/2, width := 40, height := 40,
                color := WHITE, jumps := 2, currentPlatform := none },
    store := [pc1], platforms := [0],
    state := GameState.playing, score := 0, gameSpeed := 3,
    perfectStreak := 0, isFever := false,
    viewportWidth := 400, viewportHeight := 600 }

set_option maxRecDepth 8000 in
unseal Rat.add Rat.mul Rat.sub Rat.inv in
/-- **C1 (counterexample).** On a qualifying dead-center first landing
(the tick registers a perfect: streak becomes 1), the platform's color
is NOT overwritten with the actor's color (it stays `NEON_MAGENTA`,
distinct from the actor's prior `WHITE`); instead the actor's color
becomes the platform's. This refutes the claimed color direction. -/
theorem claim1_counterexample :
    (W1.update 1 r0).1.perfectStreak = 1 ∧
    W1.player.color = WHITE ∧
    pc1.color = NEON_MAGENTA ∧
    NEON_MAGENTA ≠ WHITE ∧
    ((W1.update 1 r0).1.store[0]?).map (fun q => q.color) = some NEON_MAGENTA ∧
    (W1.update 1 r0).1.player.color = NEON_MAGENTA := by
  refine ⟨by decide, rfl, rfl, by decide, by decide, by decide⟩

/-- **C1 (amended).** On a qualifying first landing on a platform whose
horizontal distance from actor center to platform center is strictly
below the perfect tolerance (15), the perfect-streak counter is
incremented and the streak notification fires with the new value; the
platform's cosmetic color is applied to the actor's color (the actor
takes the platform's color — the platform's own color is unchanged). -/
theorem claim1_amended (e : GameEngine) (dt : ℚ) (r : SpawnRands)
    (pid : ℕ) (p : Platform)
    (hv : (e.physicsPhase r).player.vy > 0)
    (hcur : (e.physicsPhase r).player.currentPlatform = none)
    (hfind : (e.physicsPhase r).platforms.find?
       (hitTest (e.physicsPhase r).store (e.physicsPhase r).player) = some pid)
    (hget : (e.physicsPhase r).store[pid]? = some p)
    (hlo : p.landedOn = false)
    (hdist : |(e.physicsPhase r).player.x - (p.x + p.width / 2)| < PERFECT_TOLERANCE) :
    (e.update dt r).1.perfectStreak = e.perfectStreak + 1 ∧
    Event.comboChange (e.perfectStreak + 1) ∈ (e.update dt r).2 ∧
    (e.update dt r).1.player.color = p.color ∧
    ((e.update dt r).1.store[pid]?).map (fun q => q.color) = some p.color := by
  have h := update_perfect_landing e dt r pid p hv hcur hfind hget hlo hdist
  exact ⟨h.1, h.2.2.1, h.2.2.2.2.1, h.2.2.2.2.2.1⟩

set_option maxRecDepth 8000 in
unseal Rat.add Rat.mul Rat.sub Rat.inv in
theorem claim1_amended_witness :
    (W1.physicsPhase r0).player.vy > 0 ∧
    ((W1.update 1 r0).1.perfectStreak = 1 ∧
     Event.comboChange 1 ∈ (W1.update 1 r0).2 ∧
     (W1.update 1 r0).1.player.color = pc1.color ∧
     ((W1.update 1 r0).1.store[0]?).map (fun q => q.color) = some pc1.color) := by
  have h := claim1_amended W1 1 r0 0 pc1 (by decide) (by decide) (by decide) (by decide)
    (by decide) (by decide)
  exact ⟨by decide, h⟩

/-! ### Claim C2 (corrected) -/

set_option maxRecDepth 80000 in
unseal Rat.add Rat.mul Rat.sub Rat.inv in
/-- **C2 (counterexample).** Starting from streak 0 and fever off, the
run `opsA` from `S0` produces three consecutive perfect landings (the
trace shows streaks 1, 2, 3 and the fever flag turning on at the
third). The score notification of the third landing reports 3 — the
raw score times 1 — not `3 * FEVER_MULTIPLIER = 6`, refuting "already
for the score notification emitted for the third landing itself". -/
theorem claim2_counterexample :
    S0.perfectStreak = 0 ∧ S0.isFever = false ∧
    (runOps S0 opsA).2 =
      [Event.scoreUpdate 1, Event.comboChange 1, Event.scoreUpdate 2,
       Event.comboChange 2, Event.scoreUpdate 3, Event.comboChange 3,
       Event.feverChange true] ∧
    (3 : ℕ) ≠ 3 * FEVER_MULTIPLIER := by
  exact ⟨rfl, rfl, by decide, by decide⟩

/-- **C2 (amended).** With streak 2 before the tick, a qualifying
perfect landing (the third consecutive perfect) sets the fever flag and
fires the fever notification; but the score notification of that same
landing reports `(score+1)` times the multiplier in force *before* the
landing — with fever off it reports `score+1`, not
`(score+1) * FEVER_MULTIPLIER`. The fever multiplier therefore affects
displayed-score notifications only from the next landing onward. -/
theorem claim2_amended (e : GameEngine) (dt : ℚ) (r : SpawnRands)
    (pid : ℕ) (p : Platform)
    (hv : (e.physicsPhase r).player.vy > 0)
    (hcur : (e.physicsPhase r).player.currentPlatform = none)
    (hfind : (e.physicsPhase r).platforms.find?
       (hitTest (e.physicsPhase r).store (e.physicsPhase r).player) = some pid)
    (hget : (e.physicsPhase r).store[pid]? = some p)
    (hlo : p.landedOn = false)
    (hdist : |(e.physicsPhase r).player.x - (p.x + p.width / 2)| < PERFECT_TOLERANCE)
    (hstreak : e.perfectStreak = 2) :
    (e.update dt r).1.isFever = true ∧
    Event.scoreUpdate ((e.score + 1) * (if e.isFever then FEVER_MULTIPLIER else 1))
      ∈ (e.update dt r).2 ∧
    (e.isFever = false →
      Event.scoreUpdate (e.score + 1) ∈ (e.update dt r).2 ∧
      e.score + 1 ≠ (e.score + 1) * FEVER_MULTIPLIER) := by
  have h := update_perfect_landing e dt r pid p hv hcur hfind hget hlo hdist
  refine ⟨h.2.2.2.2.2.2.1 (by rw [hstreak]; decide), h.2.2.2.1, fun hfev => ?_⟩
  constructor
  · have := h.2.2.2.1
    rw [hfev] at this
    simpa using this
  · have : 0 < e.score + 1 := Nat.succ_pos e.score
    unfold FEVER_MULTIPLIER
    omega

/-- The C2 witness state: like `W1` but with a running streak of 2. -/
def W2 : GameEngine :=
  { W1 with perfectStreak := 2 }

set_option maxRecDepth 8000 in
unseal Rat.add Rat.mul Rat.sub Rat.inv in
theorem claim2_amended_witness :
    W2.perfectStreak = 2 ∧ W2.isFever = false ∧
    ((W2.update 1 r0).1.isFever = true ∧
     Event.scoreUpdate ((W2.score + 1) * (if W2.isFever then FEVER_MULTIPLIER else 1))
       ∈ (W2.update 1 r0).2 ∧
     (W2.isFever = false →
       Event.scoreUpdate (W2.score + 1) ∈ (W2.update 1 r0).2 ∧
       W2.score + 1 ≠ (W2.score + 1) * FEVER_MULTIPLIER)) := by
  have h := claim2_amended W2 1 r0 0 pc1 (by decide) (by decide) (by decide) (by decide)
    (by decide) (by decide) rfl
  exact ⟨rfl, rfl, h⟩

/-! ### Claim C8 -/

theorem landingScore_no_stateChange (pid : ℕ) (p : Platform) (e : GameEngine) :
    ∀ ev ∈ (e.landingScore pid p).2, ∀ s, ev ≠ Event.stateChange s := by
  unfold GameEngine.landingScore GameEngine.triggerPerfect GameEngine.comboBreak
  dsimp only
  repeat' split
  all_goals intro ev hev s hc
  all_goals subst hc
  all_goals simp at hev

theorem collide_no_stateChange (e : GameEngine) :
    ∀ ev ∈ (e.collide).2, ∀ s, ev ≠ Event.stateChange s := by
  unfold GameEngine.collide
  split
  · split
    · simp
    · split
      · simp
      · split
        · simp
        · exact landingScore_no_stateChange _ _ _
  · simp

/-- **C8.** Ticks in a non-`playing` phase change nothing and fire no
notifications (no physics, collision, scoring or platform update runs
once the phase is `gameover`, so the Playing→GameOver transition cannot
repeat); and a tick in the `playing` phase ends in the `gameover` phase
exactly when the post-physics actor `y` exceeds `viewportHeight + 100`,
firing the game-over phase notification exactly once in that case and
never otherwise. -/
theorem claim8_gameover (e : GameEngine) (dt : ℚ) (r : SpawnRands) :
    (e.state ≠ GameState.playing → e.loopStep dt r = (e, [])) ∧
    (e.state = GameState.playing →
      ((e.loopStep dt r).1.state = GameState.gameover ↔
        (e.loopStep dt r).1.player.y > e.viewportHeight + 100) ∧
      ((e.loopStep dt r).2.countP
          (fun ev => decide (ev = Event.stateChange GameState.gameover)) =
        if (e.loopStep dt r).1.player.y > e.viewportHeight + 100 then 1 else 0)) := by
  constructor
  · intro h
    unfold GameEngine.loopStep
    rw [if_neg h]
  · intro h
    have hstep : e.loopStep dt r = e.update dt r := by
      unfold GameEngine.loopStep
      rw [if_pos h]
    rw [hstep, update_eq]
    dsimp only
    have hFm := fallCheck_misc ((e.physicsPhase r).collide).1
    have hFs := fallCheck_state ((e.physicsPhase r).collide).1
    have hvh : ((e.physicsPhase r).collide).1.viewportHeight = e.viewportHeight := by
      rw [(collide_misc (e.physicsPhase r)).2.2.2, (physicsPhase_misc r e).2.2.2.2.2]
    have hst : ((e.physicsPhase r).collide).1.state = GameState.playing := by
      rw [(collide_misc (e.physicsPhase r)).1, (physicsPhase_misc r e).1, h]
    rw [hFm.1, hFs.1, hFs.2, hvh] at *
    constructor
    · by_cases hy :
        ((e.physicsPhase r).collide).1.player.y > e.viewportHeight + 100
      · rw [if_pos hy, hFm.1]
        exact ⟨fun _ => hy, fun _ => rfl⟩
      · rw [if_neg hy, hFm.1, hst]
        exact ⟨fun hgo => absurd hgo (by simp), fun hgt => absurd hgt hy⟩
    · rw [List.countP_append, hFm.1]
      have hz : ((e.physicsPhase r).collide).2.countP
          (fun ev => decide (ev = Event.stateChange GameState.gameover)) = 0 := by
        rw [List.countP_eq_zero]
        intro ev hev
        simpa using collide_no_stateChange (e.physicsPhase r) ev hev GameState.gameover
      rw [hz]
      by_cases hy :
        ((e.physicsPhase r).collide).1.player.y > e.viewportHeight + 100
      · rw [if_pos hy, if_pos hy]
        rfl
      · rw [if_neg hy, if_neg hy]
        rfl

/-- A state one tick from falling out of the viewport (no platforms in
reach). -/
def Wfall : GameEngine :=
  { player := { x := 200, y := 695, vx := 0, vy := 19/2, width := 40, height := 40,
                color := WHITE, jumps := 2, currentPlatform := none },
    store := [], platforms := [],
    state := GameState.playing, score := 0, gameSpeed := 3,
    perfectStreak := 0, isFever := false,
    viewportWidth := 400, viewportHeight := 600 }

set_option maxRecDepth 8000 in
unseal Rat.add Rat.mul Rat.sub Rat.inv in
theorem claim8_witness :
    ({ S0 with state := GameState.gameover }.loopStep 1 r0 =
      ({ S0 with state := GameState.gameover }, [])) ∧
    (Wfall.loopStep 1 r0).1.state = GameState.gameover ∧
    (Wfall.loopStep 1 r0).2.countP
      (fun ev => decide (ev = Event.stateChange GameState.gameover)) = 1 := by
  have h1 := (claim8_gameover { S0 with state := GameState.gameover } 1 r0).1 (by decide)
  have h2 := (claim8_gameover Wfall 1 r0).2 rfl
  refine ⟨h1, h2.1.mpr (by decide), ?_⟩
  rw [h2.2, if_pos (by decide : (Wfall.loopStep 1 r0).1.player.y > Wfall.viewportHeight + 100)]

/-! ### Claim C6 -/

theorem spawnedPlatform_landedOn (vw : ℚ) (r : SpawnRands) (y : ℚ) :
    (spawnedPlatform vw r y).landedOn = false := rfl

theorem map_landedOn_movePlatforms (e : GameEngine) :
    e.movePlatforms.store.map (fun p => p.landedOn) =
      e.store.map (fun p => p.landedOn) := by
  apply List.ext_getElem?
  intro i
  rw [List.getElem?_map, List.getElem?_map]
  exact foldMove_proj (fun p => p.landedOn) e.viewportWidth (speedMultiplier e)
    (fun p => movedPlatform_landedOn e.viewportWidth (speedMultiplier e) p)
    e.platforms (e.store, e.player) i

theorem map_landedOn_foldShift (diff : ℚ) (l : List ℕ) (store : List Platform) :
    (l.foldl (shiftStep diff) store).map (fun p => p.landedOn) =
      store.map (fun p => p.landedOn) := by
  apply List.ext_getElem?
  intro i
  rw [List.getElem?_map, List.getElem?_map]
  exact foldShift_proj (fun p => p.landedOn) diff (fun p => rfl) l store i

theorem recycleStep_store_shape (r : SpawnRands) (e : GameEngine) :
    ∃ t, (t = [] ∨ t = [false]) ∧
      (e.recycleStep r).store.map (fun p => p.landedOn) =
        e.store.map (fun p => p.landedOn) ++ t := by
  unfold GameEngine.recycleStep GameEngine.spawnPlatform
  repeat' split
  all_goals first
    | (refine ⟨[], Or.inl rfl, ?_⟩; simp; done)
    | (refine ⟨[false], Or.inr rfl, ?_⟩; simp [spawnedPlatform, Platform.new]; done)

theorem scroll_store_shape (r : SpawnRands) (e : GameEngine) :
    ∃ t, (t = [] ∨ t = [false]) ∧
      (e.scroll r).store.map (fun p => p.landedOn) =
        e.store.map (fun p => p.landedOn) ++ t := by
  unfold GameEngine.scroll
  dsimp only
  split
  · obtain ⟨t, ht, hmap⟩ := recycleStep_store_shape r
      { e with player := { e.player with y := e.viewportHeight * (3/5) },
               store := e.platforms.foldl
                 (shiftStep (e.viewportHeight * (3/5) - e.player.y)) e.store }
    exact ⟨t, ht, by rw [hmap]; dsimp only; rw [map_landedOn_foldShift]⟩
  · exact ⟨[], Or.inl rfl, by simp⟩

theorem physicsPhase_store_shape (r : SpawnRands) (e : GameEngine) :
    ∃ t, (t = [] ∨ t = [false]) ∧
      (e.physicsPhase r).store.map (fun p => p.landedOn) =
        e.store.map (fun p => p.landedOn) ++ t := by
  unfold GameEngine.physicsPhase
  obtain ⟨t, ht, hmap⟩ := scroll_store_shape r
    { e.movePlatforms with
      player := Player.update e.movePlatforms.store e.movePlatforms.player }
  refine ⟨t, ht, ?_⟩
  rw [hmap]
  dsimp only
  rw [map_landedOn_movePlatforms]

/-- The three possible outcomes of the collision pass: no landing, a
repeat landing on an already-landed platform (no scoring), or a first
landing that runs the scoring block. -/
theorem collide_cases (e : GameEngine) :
    (e.collide = (e, [])) ∨
    (∃ pid p, e.store[pid]? = some p ∧ p.landedOn = true ∧
       e.platforms.find? (hitTest e.store e.player) = some pid ∧
       e.collide = ({ e with player := e.player.land p pid }, [])) ∨
    (∃ pid p, e.store[pid]? = some p ∧ p.landedOn = false ∧
       e.platforms.find? (hitTest e.store e.player) = some pid ∧
       e.collide = ({ e with player := e.player.land p pid }).landingScore pid p) := by
  unfold GameEngine.collide
  split
  · split
    · exact Or.inl rfl
    · next o pid hfind =>
      split
      · exact Or.inl rfl
      · next o2 p hget =>
        split
        · next hlo =>
          exact Or.inr (Or.inl ⟨pid, p, hget, by simpa using hlo, hfind, rfl⟩)
        · next hlo =>
          exact Or.inr (Or.inr ⟨pid, p, hget, by simpa using hlo, hfind, rfl⟩)
  · exact Or.inl rfl

theorem landingScore_store_score (e : GameEngine) (pid : ℕ) (p : Platform) :
    (e.landingScore pid p).1.store = e.store.set pid { p with landedOn := true } ∧
    (e.landingScore pid p).1.score = e.score + 1 := by
  unfold GameEngine.landingScore
  dsimp only
  split
  · exact ⟨(triggerPerfect_misc p _).2.2.2.2.1, (triggerPerfect_misc p _).2.2.2.2.2⟩
  · exact ⟨(comboBreak_misc _).2.2.2.2.1, (comboBreak_misc _).2.2.2.2.2.1⟩

theorem collide_store_shape (e : GameEngine) :
    ((e.collide).1.store.map (fun p => p.landedOn) =
        e.store.map (fun p => p.landedOn) ∧
      (e.collide).1.score = e.score) ∨
    (∃ pid, (e.store.map (fun p => p.landedOn))[pid]? = some false ∧
      (e.collide).1.store.map (fun p => p.landedOn) =
        (e.store.map (fun p => p.landedOn)).set pid true ∧
      (e.collide).1.score = e.score + 1) := by
  rcases collide_cases e with hc | ⟨pid, p, hget, hlo, hfind, hc⟩ | ⟨pid, p, hget, hlo, hfind, hc⟩
  · rw [hc]
    exact Or.inl ⟨rfl, rfl⟩
  · rw [hc]
    exact Or.inl ⟨rfl, rfl⟩
  · rw [hc]
    have hss := landingScore_store_score { e with player := e.player.land p pid } pid p
    refine Or.inr ⟨pid, ?_, ?_, ?_⟩
    · rw [List.getElem?_map, hget]
      simp [hlo]
    · rw [hss.1]
      dsimp only
      rw [List.map_set]
    · exact hss.2

/-- **C6.** Over one tick, the list of `landedOn` flags of all platform
objects either is extended by at most one freshly spawned `false` entry
and otherwise unchanged (score unchanged), or additionally exactly one
entry flips from `false` to `true` with the raw score incremented by
exactly 1. In particular no flag ever reverts from `true` to `false`
(so each platform's flag transitions `false → true` at most once over
its lifetime), the score changes only on such a flip, and landing again
on an already-landed platform changes neither flag nor score. Input and
resize operations touch neither. -/
theorem claim6_landedOn (e : GameEngine) (dt : ℚ) (r : SpawnRands) :
    (∃ t, (t = [] ∨ t = [false]) ∧
      (((e.loopStep dt r).1.store.map (fun p => p.landedOn) =
          e.store.map (fun p => p.landedOn) ++ t ∧
        (e.loopStep dt r).1.score = e.score) ∨
       (∃ pid, (e.store.map (fun p => p.landedOn) ++ t)[pid]? = some false ∧
         (e.loopStep dt r).1.store.map (fun p => p.landedOn) =
           (e.store.map (fun p => p.landedOn) ++ t).set pid true ∧
         (e.loopStep dt r).1.score = e.score + 1))) ∧
    e.handleInput.store = e.store ∧ e.handleInput.score = e.score ∧
    (e.resize 0 0).store = e.store ∧ (e.resize 0 0).score = e.score := by
  refine ⟨?_, ?_, ?_, rfl, rfl⟩
  · unfold GameEngine.loopStep
    split
    · rw [update_eq]
      dsimp only
      have hFm := fallCheck_misc ((e.physicsPhase r).collide).1
      obtain ⟨t, ht, hphysmap⟩ := physicsPhase_store_shape r e
      have hphysscore := (physicsPhase_misc r e).2.1
      rcases collide_store_shape (e.physicsPhase r) with ⟨hmap, hscore⟩ | ⟨pid, hgf, hmap, hscore⟩
      · exact ⟨t, ht, Or.inl ⟨by rw [hFm.2.2.2.2.1, hmap, hphysmap],
          by rw [hFm.2.1, hscore, hphysscore]⟩⟩
      · refine ⟨t, ht, Or.inr ⟨pid, ?_, ?_, ?_⟩⟩
        · rw [← hphysmap]
          exact hgf
        · rw [hFm.2.2.2.2.1, hmap, hphysmap]
        · rw [hFm.2.1, hscore, hphysscore]
    · exact ⟨[], Or.inl rfl, Or.inl ⟨by simp, rfl⟩⟩
  · unfold GameEngine.handleInput
    repeat' split
    all_goals rfl
  · unfold GameEngine.handleInput
    repeat' split
    all_goals rfl

/-! ### Reachable states and their invariants -/

/-- The `y` of the store entry a platform id refers to (0 for an
invalid id, which `ValidActive` rules out). -/
def platY (store : List Platform) (pid : ℕ) : ℚ :=
  match store[pid]? with
  | some p => p.y
  | none => 0

/-- Every id on the active array points into the store. -/
def ValidActive (e : GameEngine) : Prop :=
  ∀ pid ∈ e.platforms, pid < e.store.length

/-- The §3 resting invariant: a non-null `currentPlatform` points to an
active platform, and the actor is pinned to its surface with zero
vertical velocity. -/
def Pinned (e : GameEngine) : Prop :=
  ∀ pid, e.player.currentPlatform = some pid →
    pid ∈ e.platforms ∧ e.player.vy = 0 ∧
    ∃ p, e.store[pid]? = some p ∧ e.player.y = p.y - e.player.height / 2

/-- Every active platform is either stationary or has |vx| ∈ [2, 5). -/
def VxOk (e : GameEngine) : Prop :=
  ∀ pid ∈ e.platforms, ∃ p, e.store[pid]? = some p ∧
    (|p.vx| = 0 ∨ (2 ≤ |p.vx| ∧ |p.vx| < 5))

/-- Whether an active id refers to a stationary platform. -/
def stationaryB (store : List Platform) (pid : ℕ) : Bool :=
  match store[pid]? with
  | some p => decide (p.vx = 0)
  | none => false

/-- The state invariant maintained by every engine operation. -/
def Inv (e : GameEngine) : Prop :=
  0 ≤ e.viewportHeight ∧
  e.player.height = PLAYER_SIZE ∧
  ValidActive e ∧
  e.platforms.Nodup ∧
  Pinned e ∧
  VxOk e ∧
  e.platforms.countP (stationaryB e.store) ≤ 1 ∧
  List.Chain' (· > ·) (e.platforms.map (platY e.store))

/-- The engine states reachable through the public interface under the
`Math.random` contract (draws in [0,1)) and non-negative window
dimensions. -/
inductive Reachable : GameEngine → Prop
  | init (w h : ℚ) (hw : 0 ≤ w) (hh : 0 ≤ h) : Reachable (GameEngine.new w h)
  | start (e : GameEngine) (rs : ℕ → SpawnRands) (hrs : ∀ i, (rs i).valid)
      (he : Reachable e) : Reachable (e.startGame rs).1
  | input (e : GameEngine) (he : Reachable e) : Reachable e.handleInput
  | tick (e : GameEngine) (dt : ℚ) (r : SpawnRands) (hr : r.valid)
      (he : Reachable e) : Reachable (e.loopStep dt r).1
  | vresize (e : GameEngine) (w h : ℚ) (hw : 0 ≤ w) (hh : 0 ≤ h)
      (he : Reachable e) : Reachable (e.resize w h)

/-! Component lemmas for `spawnPlatform`. -/

theorem spawnedPlatform_vx_bound (vw : ℚ) (r : SpawnRands) (y : ℚ) (hr : r.valid) :
    2 ≤ |(spawnedPlatform vw r y).vx| ∧ |(spawnedPlatform vw r y).vx| < 5 := by
  have hm0 : 0 ≤ r.rm := hr.2.2.2.2.1
  have hm1 : r.rm < 1 := hr.2.2.2.2.2
  unfold spawnedPlatform
  dsimp only
  have habs : |(if r.rs > 1/2 then (1:ℚ) else -1) * (2 + r.rm * 3)| = 2 + r.rm * 3 := by
    rw [abs_mul]
    have h2 : (0:ℚ) ≤ 2 + r.rm * 3 := by nlinarith
    split
    · rw [abs_one, one_mul, abs_of_nonneg h2]
    · rw [abs_neg, abs_one, one_mul, abs_of_nonneg h2]
  rw [habs]
  constructor
  · nlinarith
  · nlinarith

theorem spawnedPlatform_vx_ne (vw : ℚ) (r : SpawnRands) (y : ℚ) (hr : r.valid) :
    ¬(spawnedPlatform vw r y).vx = 0 := by
  intro h
  have hb := (spawnedPlatform_vx_bound vw r y hr).1
  rw [h] at hb
  simp at hb
  linarith

theorem spawnedPlatform_y (vw : ℚ) (r : SpawnRands) (y : ℚ) :
    (spawnedPlatform vw r y).y = y := rfl

theorem spawnPlatform_store (r : SpawnRands) (y : ℚ) (e : GameEngine) :
    (e.spawnPlatform r y).store = e.store ++ [spawnedPlatform e.viewportWidth r y] ∧
    (e.spawnPlatform r y).platforms = e.platforms ++ [e.store.length] :=
  ⟨rfl, rfl⟩

theorem spawnPlatform_get_old (r : SpawnRands) (y : ℚ) (e : GameEngine)
    (pid : ℕ) (h : pid < e.store.length) :
    (e.spawnPlatform r y).store[pid]? = e.store[pid]? :=
  List.getElem?_append_left h

theorem spawnPlatform_get_new (r : SpawnRands) (y : ℚ) (e : GameEngine) :
    (e.spawnPlatform r y).store[e.store.length]? =
      some (spawnedPlatform e.viewportWidth r y) := by
  show (e.store ++ [spawnedPlatform e.viewportWidth r y])[e.store.length]? = _
  rw [List.getElem?_append_right (le_refl _)]
  simp

theorem spawnPlatform_validActive (r : SpawnRands) (y : ℚ) (e : GameEngine)
    (hva : ValidActive e) : ValidActive (e.spawnPlatform r y) := by
  intro pid hmem
  have hlen : (e.spawnPlatform r y).store.length = e.store.length + 1 := by
    show (e.store ++ [_]).length = _
    simp
  rw [hlen]
  rcases List.mem_append.mp hmem with hm | hm
  · exact Nat.lt_succ_of_lt (hva pid hm)
  · simp at hm
    omega

theorem spawnPlatform_nodup (r : SpawnRands) (y : ℚ) (e : GameEngine)
    (hva : ValidActive e) (hnd : e.platforms.Nodup) :
    (e.spawnPlatform r y).platforms.Nodup := by
  show (e.platforms ++ [e.store.length]).Nodup
  rw [List.nodup_append]
  refine ⟨hnd, List.nodup_singleton _, ?_⟩
  intro a ha hb
  simp at hb
  exact absurd hb (Nat.ne_of_lt (hva a ha))

theorem spawnPlatform_pinned (r : SpawnRands) (y : ℚ) (e : GameEngine)
    (hp : Pinned e) : Pinned (e.spawnPlatform r y) := by
  intro pid hcur
  obtain ⟨hmem, hvy, p, hget, hy⟩ := hp pid hcur
  refine ⟨List.mem_append.mpr (Or.inl hmem), hvy, p, ?_, hy⟩
  rw [spawnPlatform_get_old r y e pid (List.getElem?_eq_some.mp hget).1]
  exact hget

theorem spawnPlatform_vxOk (r : SpawnRands) (y : ℚ) (e : GameEngine)
    (hr : r.valid) (hvx : VxOk e) : VxOk (e.spawnPlatform r y) := by
  intro pid hmem
  rcases List.mem_append.mp hmem with hm | hm
  · obtain ⟨p, hget, hok⟩ := hvx pid hm
    exact ⟨p, by rw [spawnPlatform_get_old r y e pid (List.getElem?_eq_some.mp hget).1]; exact hget, hok⟩
  · simp at hm
    subst hm
    refine ⟨spawnedPlatform e.viewportWidth r y, spawnPlatform_get_new r y e, Or.inr ?_⟩
    exact spawnedPlatform_vx_bound e.viewportWidth r y hr

theorem spawnPlatform_countP (r : SpawnRands) (y : ℚ) (e : GameEngine)
    (hr : r.valid) (hva : ValidActive e)
    (hc : e.platforms.countP (stationaryB e.store) ≤ 1) :
    (e.spawnPlatform r y).platforms.countP (stationaryB (e.spawnPlatform r y).store) ≤ 1 := by
  show (e.platforms ++ [e.store.length]).countP _ ≤ 1
  rw [List.countP_append]
  have hold : e.platforms.countP (stationaryB (e.spawnPlatform r y).store) =
      e.platforms.countP (stationaryB e.store) := by
    apply List.countP_congr
    intro a ha
    unfold stationaryB
    rw [spawnPlatform_get_old r y e a (hva a ha)]
  have hnew : List.countP (stationaryB (e.spawnPlatform r y).store) [e.store.length] = 0 := by
    simp only [List.countP_singleton]
    unfold stationaryB
    rw [spawnPlatform_get_new r y e]
    simp [spawnedPlatform_vx_ne e.viewportWidth r y hr]
  rw [hold, hnew, Nat.add_zero]
  exact hc

theorem spawnPlatform_chain (r : SpawnRands) (y : ℚ) (e : GameEngine)
    (hva : ValidActive e)
    (hch : List.Chain' (· > ·) (e.platforms.map (platY e.store)))
    (hlast : ∀ q ∈ (e.platforms.map (platY e.store)).getLast?, y < q) :
    List.Chain' (· > ·) ((e.spawnPlatform r y).platforms.map
      (platY (e.spawnPlatform r y).store)) := by
  show List.Chain' (· > ·) ((e.platforms ++ [e.store.length]).map _)
  rw [List.map_append]
  have hmap : e.platforms.map (platY (e.spawnPlatform r y).store) =
      e.platforms.map (platY e.store) := by
    apply List.map_congr_left
    intro a ha
    unfold platY
    rw [spawnPlatform_get_old r y e a (hva a ha)]
  have hnew : [e.store.length].map (platY (e.spawnPlatform r y).store) = [y] := by
    simp only [List.map_cons, List.map_nil]
    unfold platY
    rw [spawnPlatform_get_new r y e]
    rfl
  rw [hmap, hnew, List.chain'_append]
  refine ⟨hch, List.chain'_singleton y, ?_⟩
  intro q hq z hz
  simp at hz
  subst hz
  exact hlast q hq

/-! Pointwise-projection transfer helpers. -/

theorem platY_congr_of_proj (store store2 : List Platform) (i : ℕ)
    (h : (store2[i]?).map (fun p => p.y) = (store[i]?).map (fun p => p.y)) :
    platY store2 i = platY store i := by
  unfold platY
  cases h1 : store2[i]? with
  | none =>
    cases h2 : store[i]? with
    | none => rfl
    | some p => rw [h1, h2] at h; simp at h
  | some p =>
    cases h2 : store[i]? with
    | none => rw [h1, h2] at h; simp at h
    | some q => rw [h1, h2] at h; simpa using h

theorem stationaryB_congr_of_proj (store store2 : List Platform) (i : ℕ)
    (h : (store2[i]?).map (fun p => decide (p.vx = 0)) =
         (store[i]?).map (fun p => decide (p.vx = 0))) :
    stationaryB store2 i = stationaryB store i := by
  unfold stationaryB
  cases h1 : store2[i]? with
  | none =>
    cases h2 : store[i]? with
    | none => rfl
    | some p => rw [h1, h2] at h; simp at h
  | some p =>
    cases h2 : store[i]? with
    | none => rw [h1, h2] at h; simp at h
    | some q => rw [h1, h2] at h; simpa using h

theorem get_exists_of_proj {α : Type} (f : Platform → α)
    (store store2 : List Platform) (i : ℕ) (p : Platform)
    (h : (store2[i]?).map f = (store[i]?).map f) (hget : store[i]? = some p) :
    ∃ q, store2[i]? = some q ∧ f q = f p := by
  rw [hget] at h
  cases h1 : store2[i]? with
  | none => rw [h1] at h; simp at h
  | some q => rw [h1] at h; exact ⟨q, rfl, by simpa using h⟩

theorem movedPlatform_vx_zero (vw mult : ℚ) (p : Platform) :
    decide ((movedPlatform vw mult p).vx = 0) = decide (p.vx = 0) := by
  have h := movedPlatform_absVx vw mult p
  apply decide_eq_decide.mpr
  constructor
  · intro hz
    have : |p.vx| = 0 := by rw [← h, hz]; simp
    simpa using this
  · intro hz
    have : |(movedPlatform vw mult p).vx| = 0 := by rw [h, hz]; simp
    simpa using this

/-! Properties of `Player.update`. -/

theorem player_update_height (store : List Platform) (pl : Player) :
    (Player.update store pl).height = pl.height := by
  unfold Player.update
  repeat' split
  all_goals dsimp only
  repeat' split
  all_goals rfl

theorem player_update_cur (store : List Platform) (pl : Player) :
    (Player.update store pl).currentPlatform = pl.currentPlatform ∨
    (Player.update store pl).currentPlatform = none := by
  unfold Player.update
  repeat' split
  all_goals try dsimp only
  repeat' split
  all_goals first | exact Or.inl rfl | exact Or.inr rfl

theorem player_update_pinned (store : List Platform) (pl : Player) (pid : ℕ)
    (hcur : pl.currentPlatform = some pid) (plat : Platform)
    (hget : store[pid]? = some plat) :
    (Player.update store pl).currentPlatform = none ∨
    ((Player.update store pl).currentPlatform = some pid ∧
     (Player.update store pl).vy = 0 ∧
     (Player.update store pl).y = plat.y - pl.height / 2) := by
  unfold Player.update
  rw [hcur]
  dsimp only
  rw [hget]
  dsimp only
  split
  · exact Or.inl rfl
  · exact Or.inr ⟨rfl, rfl, rfl⟩

theorem player_update_airborne (store : List Platform) (pl : Player)
    (hcur : pl.currentPlatform = none) :
    Player.update store pl =
      { pl with vy := pl.vy + GRAVITY, y := pl.y + (pl.vy + GRAVITY) } := by
  unfold Player.update
  rw [hcur]

/-! Player shape through `landingScore`. -/

theorem triggerPerfect_player (p : Platform) (e : GameEngine) :
    (e.triggerPerfect p).1.player = { e.player with color := p.color } := by
  unfold GameEngine.triggerPerfect
  dsimp only
  split
  · rfl
  · rfl

theorem landingScore_player (e : GameEngine) (pid : ℕ) (p : Platform) :
    (e.landingScore pid p).1.player.y = e.player.y ∧
    (e.landingScore pid p).1.player.vy = e.player.vy ∧
    (e.landingScore pid p).1.player.currentPlatform = e.player.currentPlatform ∧
    (e.landingScore pid p).1.player.height = e.player.height := by
  unfold GameEngine.landingScore
  dsimp only
  split
  · rw [show (GameEngine.triggerPerfect p
      { e with store := e.store.set pid { p with landedOn := true },
               score := e.score + 1 }).1.player = _ from triggerPerfect_player p _]
    exact ⟨rfl, rfl, rfl, rfl⟩
  · rw [(comboBreak_misc _).2.2.2.2.2.2]
    exact ⟨rfl, rfl, rfl, rfl⟩

/-! `Inv` preservation through each tick phase. -/

theorem movePlatforms_inv (e : GameEngine) (h : Inv e) : Inv e.movePlatforms := by
  obtain ⟨hvh, hhei, hva, hnd, hpin, hvx, hcnt, hch⟩ := h
  obtain ⟨nx, hpl⟩ := movePlatforms_player e
  have hproj_y : ∀ i, ((e.movePlatforms.store)[i]?).map (fun p : Platform => p.y) =
      ((e.store)[i]?).map (fun p : Platform => p.y) := fun i =>
    foldMove_proj (fun p : Platform => p.y) e.viewportWidth (speedMultiplier e)
      (movedPlatform_y e.viewportWidth (speedMultiplier e)) e.platforms
      (e.store, e.player) i
  have hproj_vx : ∀ i, ((e.movePlatforms.store)[i]?).map (fun p : Platform => |p.vx|) =
      ((e.store)[i]?).map (fun p : Platform => |p.vx|) := fun i =>
    foldMove_proj (fun p : Platform => |p.vx|) e.viewportWidth (speedMultiplier e)
      (movedPlatform_absVx e.viewportWidth (speedMultiplier e)) e.platforms
      (e.store, e.player) i
  have hproj_st : ∀ i,
      ((e.movePlatforms.store)[i]?).map (fun p : Platform => decide (p.vx = 0)) =
      ((e.store)[i]?).map (fun p : Platform => decide (p.vx = 0)) := fun i =>
    foldMove_proj (fun p : Platform => decide (p.vx = 0)) e.viewportWidth (speedMultiplier e)
      (movedPlatform_vx_zero e.viewportWidth (speedMultiplier e)) e.platforms
      (e.store, e.player) i
  refine ⟨hvh, ?_, ?_, hnd, ?_, ?_, ?_, ?_⟩
  · rw [hpl]
    exact hhei
  · intro pid hm
    rw [movePlatforms_store_length]
    exact hva pid hm
  · intro pid hcur
    rw [hpl] at hcur
    obtain ⟨hmem, hvy, p, hget, hy⟩ := hpin pid hcur
    obtain ⟨q, hgetq, hyq⟩ :=
      get_exists_of_proj (fun p => p.y) e.store e.movePlatforms.store pid p
        (hproj_y pid) hget
    refine ⟨hmem, by rw [hpl]; exact hvy, q, hgetq, ?_⟩
    rw [hpl]
    show e.player.y = q.y - e.player.height / 2
    rw [hyq]
    exact hy
  · intro pid hm
    obtain ⟨p, hget, hok⟩ := hvx pid hm
    obtain ⟨q, hgetq, habs⟩ :=
      get_exists_of_proj (fun p => |p.vx|) e.store e.movePlatforms.store pid p
        (hproj_vx pid) hget
    exact ⟨q, hgetq, by rw [habs]; exact hok⟩
  · have hc : e.movePlatforms.platforms.countP (stationaryB e.movePlatforms.store) =
        e.platforms.countP (stationaryB e.store) := by
      rw [movePlatforms_platforms]
      apply List.countP_congr
      intro a ha
      rw [stationaryB_congr_of_proj e.store e.movePlatforms.store a (hproj_st a)]
    rw [hc]
    exact hcnt
  · rw [movePlatforms_platforms]
    rw [List.map_congr_left
      (fun a ha => platY_congr_of_proj e.store e.movePlatforms.store a (hproj_y a))]
    exact hch

theorem playerStep_inv (e : GameEngine) (h : Inv e) :
    Inv { e with player := Player.update e.store e.player } := by
  obtain ⟨hvh, hhei, hva, hnd, hpin, hvx, hcnt, hch⟩ := h
  refine ⟨hvh, ?_, hva, hnd, ?_, hvx, hcnt, hch⟩
  · show (Player.update e.store e.player).height = PLAYER_SIZE
    rw [player_update_height]
    exact hhei
  · intro pid hcur
    replace hcur : (Player.update e.store e.player).currentPlatform = some pid := hcur
    rcases player_update_cur e.store e.player with hc | hc
    · have hcur0 : e.player.currentPlatform = some pid := by rw [← hc]; exact hcur
      obtain ⟨hmem, hvy, p, hget, hy⟩ := hpin pid hcur0
      rcases player_update_pinned e.store e.player pid hcur0 p hget with
        hnone | ⟨hc2, hvy2, hy2⟩
      · rw [hnone] at hcur
        cases hcur
      · refine ⟨hmem, hvy2, p, hget, ?_⟩
        show (Player.update e.store e.player).y =
          p.y - (Player.update e.store e.player).height / 2
        rw [hy2, player_update_height]
    · rw [hc] at hcur
      cases hcur

theorem recycleStep_inv (r : SpawnRands) (e : GameEngine) (hr : r.valid) (h : Inv e)
    (hsafe : ∀ pid, e.player.currentPlatform = some pid →
        ∀ q, e.store[pid]? = some q → ¬(q.y > e.viewportHeight + 100)) :
    Inv (e.recycleStep r) := by
  obtain ⟨hvh, hhei, hva, hnd, hpin, hvx, hcnt, hch⟩ := h
  unfold GameEngine.recycleStep
  split
  · exact ⟨hvh, hhei, hva, hnd, hpin, hvx, hcnt, hch⟩
  · next x p0 rest heq =>
    split
    · exact ⟨hvh, hhei, hva, hnd, hpin, hvx, hcnt, hch⟩
    · next o p hgetp0 =>
      split
      · next hy =>
        have hvaR : ValidActive { e with platforms := rest } := by
          intro pid hm
          exact hva pid (by rw [heq]; exact List.mem_cons_of_mem p0 hm)
        have hndR : rest.Nodup := by
          rw [heq] at hnd
          exact (List.nodup_cons.mp hnd).2
        have hpinR : Pinned { e with platforms := rest } := by
          intro pid hcur
          obtain ⟨hmem, hvy, q, hget, hyq⟩ := hpin pid hcur
          have hne : pid ≠ p0 := by
            intro hpe
            subst hpe
            rw [hget] at hgetp0
            injection hgetp0 with hqp
            subst hqp
            exact hsafe pid hcur q hget hy
          rw [heq] at hmem
          rcases List.mem_cons.mp hmem with hmem | hmem
          · exact absurd hmem hne
          · exact ⟨hmem, hvy, q, hget, hyq⟩
        have hvxR : VxOk { e with platforms := rest } := by
          intro pid hm
          exact hvx pid (by rw [heq]; exact List.mem_cons_of_mem p0 hm)
        have hcntR : rest.countP (stationaryB e.store) ≤ 1 := by
          rw [heq, List.countP_cons] at hcnt
          omega
        have hchR : List.Chain' (· > ·) (rest.map (platY e.store)) := by
          rw [heq, List.map_cons] at hch
          exact hch.tail
        dsimp only
        split
        · exact ⟨hvh, hhei, hvaR, hndR, hpinR, hvxR, hcntR, hchR⟩
        · next o2 lid hlastid =>
          split
          · exact ⟨hvh, hhei, hvaR, hndR, hpinR, hvxR, hcntR, hchR⟩
          · next o3 lastP hgetlid =>
            have hlast : ∀ q ∈ (({ e with platforms := rest } : GameEngine).platforms.map
                (platY ({ e with platforms := rest } : GameEngine).store)).getLast?,
                lastP.y - PLATFORM_SPACING < q := by
              intro q hq
              have hgl : (rest.map (platY e.store)).getLast? = some (platY e.store lid) := by
                rw [List.getLast?_map, hlastid]
                rfl
              rw [show (({ e with platforms := rest } : GameEngine).platforms.map
                  (platY ({ e with platforms := rest } : GameEngine).store)) =
                  rest.map (platY e.store) from rfl, hgl] at hq
              simp at hq
              subst hq
              have : platY e.store lid = lastP.y := by
                unfold platY
                rw [hgetlid]
              rw [this]
              unfold PLATFORM_SPACING
              linarith
            exact ⟨hvh, hhei,
              spawnPlatform_validActive r _ _ hvaR,
              spawnPlatform_nodup r _ _ hvaR hndR,
              spawnPlatform_pinned r _ _ hpinR,
              spawnPlatform_vxOk r _ _ hr hvxR,
              spawnPlatform_countP r _ _ hr hvaR hcntR,
              spawnPlatform_chain r _ _ hvaR hchR hlast⟩
      · exact ⟨hvh, hhei, hva, hnd, hpin, hvx, hcnt, hch⟩

theorem scroll_inv (r : SpawnRands) (e : GameEngine) (hr : r.valid) (h : Inv e) :
    Inv (e.scroll r) := by
  obtain ⟨hvh, hhei, hva, hnd, hpin, hvx, hcnt, hch⟩ := h
  unfold GameEngine.scroll
  dsimp only
  split
  · next hylt =>
    set th := e.viewportHeight * (3/5) with hth
    set diff := th - e.player.y with hdiff
    set eS : GameEngine :=
      { e with player := { e.player with y := th },
               store := e.platforms.foldl (shiftStep diff) e.store } with heS
    have hlenS : eS.store.length = e.store.length :=
      foldShift_length diff e.platforms e.store
    have hvaS : ValidActive eS := by
      intro pid hm
      rw [hlenS]
      exact hva pid hm
    have hpinS : Pinned eS := by
      intro pid hcur
      obtain ⟨hmem, hvy, p, hget, hy⟩ := hpin pid hcur
      refine ⟨hmem, hvy, { p with y := p.y + diff },
        foldShift_mem diff e.platforms e.store pid p hnd hmem hget, ?_⟩
      show th = (p.y + diff) - e.player.height / 2
      rw [hdiff]
      have : e.player.y = p.y - e.player.height / 2 := hy
      linarith
    have hvxS : VxOk eS := by
      intro pid hm
      obtain ⟨p, hget, hok⟩ := hvx pid hm
      obtain ⟨q, hgetq, habs⟩ := get_exists_of_proj (fun p : Platform => |p.vx|)
        e.store eS.store pid p
        (foldShift_proj (fun p : Platform => |p.vx|) diff (fun p => rfl)
          e.platforms e.store pid) hget
      exact ⟨q, hgetq, by rw [habs]; exact hok⟩
    have hcntS : eS.platforms.countP (stationaryB eS.store) ≤ 1 := by
      have : eS.platforms.countP (stationaryB eS.store) =
          e.platforms.countP (stationaryB e.store) := by
        apply List.countP_congr
        intro a ha
        rw [stationaryB_congr_of_proj e.store eS.store a
          (foldShift_proj (fun p : Platform => decide (p.vx = 0)) diff (fun p => rfl)
            e.platforms e.store a)]
      rw [this]
      exact hcnt
    have hchS : List.Chain' (· > ·) (eS.platforms.map (platY eS.store)) := by
      have hmapS : eS.platforms.map (platY eS.store) =
          (e.platforms.map (platY e.store)).map (fun q => q + diff) := by
        rw [List.map_map]
        apply List.map_congr_left
        intro a ha
        show platY eS.store a = platY e.store a + diff
        unfold platY
        have hlt : a < e.store.length := hva a ha
        have hget : e.store[a]? = some e.store[a] := List.getElem?_eq_getElem hlt
        rw [foldShift_mem diff e.platforms e.store a _ hnd ha hget, hget]
      rw [hmapS, List.chain'_map]
      exact hch.imp (fun a b hab => add_lt_add_right hab diff)
    have hsafeS : ∀ pid, eS.player.currentPlatform = some pid →
        ∀ q, eS.store[pid]? = some q → ¬(q.y > eS.viewportHeight + 100) := by
      intro pid hcur q hget hgt
      obtain ⟨hmem, hvy, p2, hget2, hy2⟩ := hpinS pid hcur
      rw [hget] at hget2
      cases hget2
      have hyq : th = q.y - e.player.height / 2 := hy2
      have hh40 : e.player.height = 40 := by rw [hhei]; rfl
      rw [hh40] at hyq
      have hvh2 : eS.viewportHeight = e.viewportHeight := rfl
      rw [hvh2] at hgt
      rw [hth] at hyq
      linarith
    exact recycleStep_inv r eS hr
      ⟨hvh, hhei, hvaS, hnd, hpinS, hvxS, hcntS, hchS⟩ hsafeS
  · exact ⟨hvh, hhei, hva, hnd, hpin, hvx, hcnt, hch⟩

theorem set_landedOn_proj {α : Type} (f : Platform → α) (store : List Platform)
    (pid : ℕ) (p : Platform) (hget : store[pid]? = some p)
    (hf : f { p with landedOn := true } = f p) (i : ℕ) :
    ((store.set pid { p with landedOn := true })[i]?).map f = (store[i]?).map f := by
  rcases eq_or_ne pid i with rfl | hne
  · rw [List.getElem?_set_self (by simpa using (List.getElem?_eq_some.mp hget).1), hget]
    simp [hf]
  · rw [List.getElem?_set_ne hne]

theorem collide_inv (e : GameEngine) (h : Inv e) : Inv (e.collide).1 := by
  obtain ⟨hvh, hhei, hva, hnd, hpin, hvx, hcnt, hch⟩ := h
  rcases collide_cases e with hc | ⟨pid, p, hget, hlo, hfind, hc⟩ |
    ⟨pid, p, hget, hlo, hfind, hc⟩
  · rw [hc]
    exact ⟨hvh, hhei, hva, hnd, hpin, hvx, hcnt, hch⟩
  · rw [hc]
    refine ⟨hvh, hhei, hva, hnd, ?_, hvx, hcnt, hch⟩
    intro pid2 hcur
    have hpe : some pid = some pid2 := hcur
    injection hpe with hpe
    subst hpe
    exact ⟨List.mem_of_find?_eq_some hfind, rfl, p, hget, rfl⟩
  · rw [hc]
    have hss := landingScore_store_score { e with player := e.player.land p pid } pid p
    have hpp := landingScore_player { e with player := e.player.land p pid } pid p
    have hpmisc := landingScore_misc pid p { e with player := e.player.land p pid }
    have hpidlt : pid < e.store.length := by simpa using (List.getElem?_eq_some.mp hget).1
    have hproj_y : ∀ i : ℕ, ((({ e with player := e.player.land p pid } : GameEngine).landingScore
          pid p).1.store[i]?).map (fun p : Platform => p.y) =
        (e.store[i]?).map (fun p : Platform => p.y) := by
      intro i
      rw [hss.1]
      exact set_landedOn_proj (fun p : Platform => p.y) e.store pid p hget rfl i
    have hproj_vx : ∀ i : ℕ, ((({ e with player := e.player.land p pid } : GameEngine).landingScore
          pid p).1.store[i]?).map (fun p : Platform => |p.vx|) =
        (e.store[i]?).map (fun p : Platform => |p.vx|) := by
      intro i
      rw [hss.1]
      exact set_landedOn_proj (fun p : Platform => |p.vx|) e.store pid p hget rfl i
    have hproj_st : ∀ i : ℕ, ((({ e with player := e.player.land p pid } : GameEngine).landingScore
          pid p).1.store[i]?).map (fun p : Platform => decide (p.vx = 0)) =
        (e.store[i]?).map (fun p : Platform => decide (p.vx = 0)) := by
      intro i
      rw [hss.1]
      exact set_landedOn_proj (fun p : Platform => decide (p.vx = 0)) e.store pid p hget rfl i
    refine ⟨?_, ?_, ?_, ?_, ?_, ?_, ?_, ?_⟩
    · rw [hpmisc.2.2.2]
      exact hvh
    · rw [hpp.2.2.2]
      exact hhei
    · intro pid2 hm
      rw [hpmisc.2.1] at hm
      rw [hss.1, List.length_set]
      exact hva pid2 hm
    · rw [hpmisc.2.1]
      exact hnd
    · intro pid2 hcur
      rw [hpp.2.2.1] at hcur
      have hpe : some pid = some pid2 := hcur
      injection hpe with hpe
      subst hpe
      refine ⟨by rw [hpmisc.2.1]; exact List.mem_of_find?_eq_some hfind,
        by rw [hpp.2.1]; rfl, { p with landedOn := true }, ?_, ?_⟩
      · rw [hss.1, List.getElem?_set_self (by simpa using hpidlt)]
      · rw [hpp.1, hpp.2.2.2]
        rfl
    · intro pid2 hm
      rw [hpmisc.2.1] at hm
      obtain ⟨q, hgetq, hok⟩ := hvx pid2 hm
      obtain ⟨q2, hgetq2, habs⟩ := get_exists_of_proj (fun p : Platform => |p.vx|)
        e.store _ pid2 q (hproj_vx pid2) hgetq
      exact ⟨q2, hgetq2, by rw [habs]; exact hok⟩
    · rw [hpmisc.2.1]
      have hcc : ∀ a ∈ e.platforms,
          stationaryB (({ e with player := e.player.land p pid } : GameEngine).landingScore
            pid p).1.store a = stationaryB e.store a := by
        intro a ha
        exact stationaryB_congr_of_proj e.store _ a (hproj_st a)
      calc e.platforms.countP _ = e.platforms.countP (stationaryB e.store) :=
            List.countP_congr (fun a ha => by rw [hcc a ha])
        _ ≤ 1 := hcnt
    · rw [hpmisc.2.1]
      rw [List.map_congr_left (fun a ha => platY_congr_of_proj e.store _ a (hproj_y a))]
      exact hch

theorem fallCheck_inv (e : GameEngine) (h : Inv e) : Inv (e.fallCheck).1 := by
  have hm := fallCheck_misc e
  unfold Inv ValidActive Pinned VxOk at h ⊢
  rw [hm.1, hm.2.2.2.2.1, hm.2.2.2.2.2.1, hm.2.2.2.2.2.2.2]
  exact h

theorem physicsPhase_inv (r : SpawnRands) (e : GameEngine) (hr : r.valid)
    (h : Inv e) : Inv (e.physicsPhase r) := by
  unfold GameEngine.physicsPhase
  exact scroll_inv r _ hr (playerStep_inv e.movePlatforms (movePlatforms_inv e h))

theorem update_inv (e : GameEngine) (dt : ℚ) (r : SpawnRands) (hr : r.valid)
    (h : Inv e) : Inv (e.update dt r).1 := by
  rw [update_eq]
  exact fallCheck_inv _ (collide_inv _ (physicsPhase_inv r e hr h))

theorem loopStep_inv (e : GameEngine) (dt : ℚ) (r : SpawnRands) (hr : r.valid)
    (h : Inv e) : Inv (e.loopStep dt r).1 := by
  unfold GameEngine.loopStep
  split
  · exact update_inv e dt r hr h
  · exact h

theorem handleInput_inv (e : GameEngine) (h : Inv e) : Inv e.handleInput := by
  obtain ⟨hvh, hhei, hva, hnd, hpin, hvx, hcnt, hch⟩ := h
  unfold GameEngine.handleInput
  split
  · split
    · refine ⟨hvh, hhei, hva, hnd, ?_, hvx, hcnt, hch⟩
      intro pid hcur
      have : (none : Option ℕ) = some pid := hcur
      cases this
    · exact ⟨hvh, hhei, hva, hnd, hpin, hvx, hcnt, hch⟩
  · exact ⟨hvh, hhei, hva, hnd, hpin, hvx, hcnt, hch⟩

theorem resize_inv (e : GameEngine) (w hdim : ℚ) (h0 : 0 ≤ hdim) (h : Inv e) :
    Inv (e.resize w hdim) := by
  obtain ⟨hvh, hhei, hva, hnd, hpin, hvx, hcnt, hch⟩ := h
  exact ⟨h0, hhei, hva, hnd, hpin, hvx, hcnt, hch⟩

/-- The initial-spawn loop of `resetGame`, as a named fold. -/
def spawnFold (rs : ℕ → SpawnRands) (base : ℚ) (l : List ℕ) (e0 : GameEngine) :
    GameEngine :=
  l.foldl
    (fun acc i => acc.spawnPlatform (rs (i + 1)) (base - ((i : ℚ) + 1) * PLATFORM_SPACING))
    e0

theorem spawnPlatform_map_platY (r : SpawnRands) (y : ℚ) (e : GameEngine)
    (hva : ValidActive e) :
    (e.spawnPlatform r y).platforms.map (platY (e.spawnPlatform r y).store) =
      e.platforms.map (platY e.store) ++ [y] := by
  show (e.platforms ++ [e.store.length]).map _ = _
  rw [List.map_append]
  have hmap : e.platforms.map (platY (e.spawnPlatform r y).store) =
      e.platforms.map (platY e.store) := by
    apply List.map_congr_left
    intro a ha
    unfold platY
    rw [spawnPlatform_get_old r y e a (hva a ha)]
  have hnew : [e.store.length].map (platY (e.spawnPlatform r y).store) = [y] := by
    simp only [List.map_cons, List.map_nil]
    unfold platY
    rw [spawnPlatform_get_new r y e]
    rfl
  rw [hmap, hnew]

theorem spawnFold_inv (rs : ℕ → SpawnRands) (hrs : ∀ i, (rs i).valid) (base : ℚ)
    (l : List ℕ) (e0 : GameEngine)
    (hsorted : List.Chain' (· < ·) l)
    (h1 : ValidActive e0) (h2 : e0.platforms.Nodup) (h3 : Pinned e0)
    (h4 : VxOk e0) (h5 : e0.platforms.countP (stationaryB e0.store) ≤ 1)
    (h6 : List.Chain' (· > ·) (e0.platforms.map (platY e0.store)))
    (h7 : ∀ i ∈ l.head?, ∀ q ∈ (e0.platforms.map (platY e0.store)).getLast?,
        base - ((i : ℚ) + 1) * PLATFORM_SPACING < q) :
    ValidActive (spawnFold rs base l e0) ∧ (spawnFold rs base l e0).platforms.Nodup ∧
    Pinned (spawnFold rs base l e0) ∧ VxOk (spawnFold rs base l e0) ∧
    (spawnFold rs base l e0).platforms.countP
      (stationaryB (spawnFold rs base l e0).store) ≤ 1 ∧
    List.Chain' (· > ·)
      ((spawnFold rs base l e0).platforms.map (platY (spawnFold rs base l e0).store)) ∧
    (spawnFold rs base l e0).player = e0.player ∧
    (spawnFold rs base l e0).viewportHeight = e0.viewportHeight := by
  induction l generalizing e0 with
  | nil => exact ⟨h1, h2, h3, h4, h5, h6, rfl, rfl⟩
  | cons a l ih =>
    have hstep : spawnFold rs base (a :: l) e0 =
        spawnFold rs base l
          (e0.spawnPlatform (rs (a + 1)) (base - ((a : ℚ) + 1) * PLATFORM_SPACING)) := rfl
    rw [hstep]
    have hcc := List.chain'_cons'.mp hsorted
    have hlasta : ∀ q ∈ (e0.platforms.map (platY e0.store)).getLast?,
        base - ((a : ℚ) + 1) * PLATFORM_SPACING < q := by
      intro q hq
      exact h7 a (by simp) q hq
    have hmapa := spawnPlatform_map_platY (rs (a + 1))
      (base - ((a : ℚ) + 1) * PLATFORM_SPACING) e0 h1
    refine ih _ hcc.2
      (spawnPlatform_validActive _ _ _ h1)
      (spawnPlatform_nodup _ _ _ h1 h2)
      (spawnPlatform_pinned _ _ _ h3)
      (spawnPlatform_vxOk _ _ _ (hrs (a + 1)) h4)
      (spawnPlatform_countP _ _ _ (hrs (a + 1)) h1 h5)
      (spawnPlatform_chain _ _ _ h1 h6 hlasta)
      ?_
    intro i hi q hq
    rw [hmapa, List.getLast?_concat] at hq
    simp at hq
    subst hq
    have hai : a < i := hcc.1 i hi
    have haiq : (a : ℚ) < (i : ℚ) := by exact_mod_cast hai
    unfold PLATFORM_SPACING
    nlinarith

theorem resetGame_eq_spawnFold (rs : ℕ → SpawnRands) (e : GameEngine) :
    (e.resetGame rs).1 =
      spawnFold rs (e.viewportHeight * (4/5) + 40) (List.range 5)
        { e with
          score := 0, gameSpeed := MOVE_SPEED_INITIAL, perfectStreak := 0,
          isFever := false,
          store := e.store ++ [Platform.new (e.viewportWidth / 2 - 100)
            (e.viewportHeight * (4/5) + 40) 200 NEON_MAGENTA],
          platforms := [e.store.length],
          player := { Player.new (e.viewportWidth / 2) (e.viewportHeight * (4/5)) with
                      color := NEON_CYAN,
                      currentPlatform := some e.store.length,
                      y := (e.viewportHeight * (4/5) + 40) - PLAYER_SIZE / 2 } } := rfl

theorem resetGame_inv (rs : ℕ → SpawnRands) (hrs : ∀ i, (rs i).valid)
    (e : GameEngine) (hvh : 0 ≤ e.viewportHeight) : Inv (e.resetGame rs).1 := by
  rw [resetGame_eq_spawnFold]
  set e2 : GameEngine :=
    { e with
      score := 0, gameSpeed := MOVE_SPEED_INITIAL, perfectStreak := 0,
      isFever := false,
      store := e.store ++ [Platform.new (e.viewportWidth / 2 - 100)
        (e.viewportHeight * (4/5) + 40) 200 NEON_MAGENTA],
      platforms := [e.store.length],
      player := { Player.new (e.viewportWidth / 2) (e.viewportHeight * (4/5)) with
                  color := NEON_CYAN,
                  currentPlatform := some e.store.length,
                  y := (e.viewportHeight * (4/5) + 40) - PLAYER_SIZE / 2 } } with he2
  have hbase : e2.store[e.store.length]? =
      some (Platform.new (e.viewportWidth / 2 - 100)
        (e.viewportHeight * (4/5) + 40) 200 NEON_MAGENTA) := by
    show (e.store ++ [_])[e.store.length]? = _
    rw [List.getElem?_append_right (le_refl _)]
    simp
  have h1 : ValidActive e2 := by
    intro pid hm
    have hpm : pid = e.store.length := by simpa using hm
    subst hpm
    show e.store.length < (e.store ++
      [Platform.new (e.viewportWidth / 2 - 100)
        (e.viewportHeight * (4/5) + 40) 200 NEON_MAGENTA]).length
    simp
  have h2 : e2.platforms.Nodup := List.nodup_singleton _
  have h3 : Pinned e2 := by
    intro pid hcur
    have hpe : some e.store.length = some pid := hcur
    injection hpe with hpe
    subst hpe
    refine ⟨by simp [he2], rfl, _, hbase, rfl⟩
  have h4 : VxOk e2 := by
    intro pid hm
    have : pid = e.store.length := by simpa using hm
    subst this
    exact ⟨_, hbase, Or.inl (by simp [Platform.new])⟩
  have h5 : e2.platforms.countP (stationaryB e2.store) ≤ 1 := by
    have hlen : e2.platforms.length = 1 := rfl
    exact le_trans (List.countP_le_length _) (le_of_eq hlen)
  have h6 : List.Chain' (· > ·) (e2.platforms.map (platY e2.store)) := by
    show List.Chain' (· > ·) [platY e2.store e.store.length]
    exact List.chain'_singleton _
  have h7 : ∀ i ∈ (List.range 5).head?,
      ∀ q ∈ (e2.platforms.map (platY e2.store)).getLast?,
      (e.viewportHeight * (4/5) + 40) - ((i : ℚ) + 1) * PLATFORM_SPACING < q := by
    intro i hi q hq
    have hi0 : i = 0 := by
      rw [show List.range 5 = [0, 1, 2, 3, 4] from rfl] at hi
      simp at hi
      omega
    subst hi0
    rw [show (e2.platforms.map (platY e2.store)).getLast? =
        some (platY e2.store e.store.length) from rfl] at hq
    have hq2 : some (platY e2.store e.store.length) = some q := Option.mem_def.mp hq
    injection hq2 with hq2
    have hpy : platY e2.store e.store.length = e.viewportHeight * (4/5) + 40 := by
      unfold platY
      rw [hbase]
      rfl
    rw [← hq2, hpy]
    unfold PLATFORM_SPACING
    norm_num
  have hsorted : List.Chain' (· < ·) (List.range 5) := by
    rw [show List.range 5 = [0, 1, 2, 3, 4] from rfl]
    norm_num [List.chain'_cons]
  obtain ⟨g1, g2, g3, g4, g5, g6, g7, g8⟩ :=
    spawnFold_inv rs hrs (e.viewportHeight * (4/5) + 40) (List.range 5) e2
      hsorted h1 h2 h3 h4 h5 h6 h7
  refine ⟨by rw [g8]; exact hvh, by rw [g7]; rfl, g1, g2, g3, g4, g5, g6⟩

theorem startGame_inv (rs : ℕ → SpawnRands) (hrs : ∀ i, (rs i).valid)
    (e : GameEngine) (hvh : 0 ≤ e.viewportHeight) : Inv (e.startGame rs).1 := by
  have h := resetGame_inv rs hrs e hvh
  obtain ⟨hvhR, hhei, hva, hnd, hpin, hvx, hcnt, hch⟩ := h
  exact ⟨hvhR, hhei, hva, hnd, hpin, hvx, hcnt, hch⟩

/-- Every reachable state satisfies the master invariant. -/
theorem reachable_inv (e : GameEngine) (h : Reachable e) : Inv e := by
  induction h with
  | init w hdim hw hh =>
    refine ⟨hh, rfl, ?_, List.nodup_nil, ?_, ?_, ?_, ?_⟩
    · intro pid hm
      cases hm
    · intro pid hcur
      cases hcur
    · intro pid hm
      cases hm
    · simp [GameEngine.new]
    · exact List.chain'_nil
  | start e rs hrs he ih => exact startGame_inv rs hrs e ih.1
  | input e he ih => exact handleInput_inv e ih
  | tick e dt r hr he ih => exact loopStep_inv e dt r hr ih
  | vresize e w hdim hw hh he ih => exact resize_inv e w hdim hh ih

theorem spawnFold_player (rs : ℕ → SpawnRands) (base : ℚ) (l : List ℕ)
    (e0 : GameEngine) : (spawnFold rs base l e0).player = e0.player := by
  induction l generalizing e0 with
  | nil => rfl
  | cons a l ih => exact (ih _).trans rfl

theorem spawnFold_platforms_length (rs : ℕ → SpawnRands) (base : ℚ) (l : List ℕ)
    (e0 : GameEngine) :
    (spawnFold rs base l e0).platforms.length = e0.platforms.length + l.length := by
  induction l generalizing e0 with
  | nil => rfl
  | cons a l ih =>
    have hstep : spawnFold rs base (a :: l) e0 =
        spawnFold rs base l
          (e0.spawnPlatform (rs (a + 1)) (base - ((a : ℚ) + 1) * PLATFORM_SPACING)) := rfl
    rw [hstep, ih]
    show (e0.platforms ++ [e0.store.length]).length + l.length = _
    simp
    omega

theorem spawnFold_platforms_head (rs : ℕ → SpawnRands) (base : ℚ) (l : List ℕ)
    (e0 : GameEngine) (x : ℕ) (xs : List ℕ) (h : e0.platforms = x :: xs) :
    (spawnFold rs base l e0).platforms.head? = some x := by
  induction l generalizing e0 xs with
  | nil => rw [show (spawnFold rs base [] e0).platforms = e0.platforms from rfl, h]; rfl
  | cons a l ih =>
    have hstep : spawnFold rs base (a :: l) e0 =
        spawnFold rs base l
          (e0.spawnPlatform (rs (a + 1)) (base - ((a : ℚ) + 1) * PLATFORM_SPACING)) := rfl
    rw [hstep]
    exact ih _ (xs ++ [e0.store.length]) (by show e0.platforms ++ [_] = _; rw [h]; rfl)

theorem spawnFold_store_grows (rs : ℕ → SpawnRands) (base : ℚ) (l : List ℕ)
    (e0 : GameEngine) : e0.store.length ≤ (spawnFold rs base l e0).store.length := by
  induction l generalizing e0 with
  | nil => exact le_refl _
  | cons a l ih =>
    have hstep : spawnFold rs base (a :: l) e0 =
        spawnFold rs base l
          (e0.spawnPlatform (rs (a + 1)) (base - ((a : ℚ) + 1) * PLATFORM_SPACING)) := rfl
    rw [hstep]
    refine le_trans ?_ (ih _)
    show e0.store.length ≤ (e0.store ++ [_]).length
    simp

theorem spawnFold_get_old (rs : ℕ → SpawnRands) (base : ℚ) (l : List ℕ)
    (e0 : GameEngine) (pid : ℕ) (h : pid < e0.store.length) :
    (spawnFold rs base l e0).store[pid]? = e0.store[pid]? := by
  induction l generalizing e0 with
  | nil => rfl
  | cons a l ih =>
    have hstep : spawnFold rs base (a :: l) e0 =
        spawnFold rs base l
          (e0.spawnPlatform (rs (a + 1)) (base - ((a : ℚ) + 1) * PLATFORM_SPACING)) := rfl
    rw [hstep, ih _ (by show pid < (e0.store ++ [_]).length; simp; omega)]
    exact spawnPlatform_get_old _ _ _ pid h

/-! ### Claim C4 -/

/-- **C4.** In every reachable simulation state (in particular after any
tick), if the actor's resting-platform reference is non-null then the
actor's vertical velocity is 0 and its vertical position equals the
referenced platform's top `y` minus half the actor's height. -/
theorem claim4_resting_pin (e : GameEngine) (h : Reachable e) (pid : ℕ)
    (hc : e.player.currentPlatform = some pid) :
    e.player.vy = 0 ∧
    ∃ p, e.store[pid]? = some p ∧ e.player.y = p.y - e.player.height / 2 := by
  obtain ⟨-, -, -, -, hpin, -, -, -⟩ := reachable_inv e h
  obtain ⟨-, hvy, p, hget, hy⟩ := hpin pid hc
  exact ⟨hvy, p, hget, hy⟩

def rsHalf : ℕ → SpawnRands := fun _ => ⟨1/2, 1/2, 1/2, 1/2, 1/2⟩

def E1 : GameEngine := ((GameEngine.new 400 600).startGame rsHalf).1

theorem E1_reachable : Reachable E1 :=
  Reachable.start (GameEngine.new 400 600) rsHalf
    (fun i => by norm_num [SpawnRands.valid, rsHalf])
    (Reachable.init 400 600 (by norm_num) (by norm_num))

theorem claim4_witness :
    E1.player.currentPlatform = some 0 ∧
    (E1.player.vy = 0 ∧
     ∃ p, E1.store[0]? = some p ∧ E1.player.y = p.y - E1.player.height / 2) :=
  ⟨rfl, claim4_resting_pin E1 E1_reachable 0 rfl⟩

/-! ### Claim C10 -/

/-- **C10.** In every reachable state at most one active platform is
stationary, and every active platform is either stationary or has
|vx| ∈ [2, 5). At reset the base platform is the first active platform:
fixed width 200, horizontally centered, velocity 0, with the actor
attached to it. Every platform produced by `spawnPlatform` from draws
in [0,1) has |vx| ∈ [2, 5) — never stationary. -/
theorem claim10_stationary (e : GameEngine) (h : Reachable e) :
    (∀ pid ∈ e.platforms, ∃ p, e.store[pid]? = some p ∧
        (|p.vx| = 0 ∨ (2 ≤ |p.vx| ∧ |p.vx| < 5))) ∧
    e.platforms.countP (stationaryB e.store) ≤ 1 ∧
    (∀ (rs : ℕ → SpawnRands) (e2 : GameEngine),
       (e2.startGame rs).1.platforms.head? = some e2.store.length ∧
       (e2.startGame rs).1.store[e2.store.length]? =
         some (Platform.new (e2.viewportWidth / 2 - 100)
           (e2.viewportHeight * (4/5) + 40) 200 NEON_MAGENTA) ∧
       (Platform.new (e2.viewportWidth / 2 - 100)
           (e2.viewportHeight * (4/5) + 40) 200 NEON_MAGENTA).vx = 0 ∧
       (e2.startGame rs).1.player.currentPlatform = some e2.store.length) ∧
    (∀ (vw : ℚ) (r : SpawnRands) (y : ℚ), r.valid →
       2 ≤ |(spawnedPlatform vw r y).vx| ∧ |(spawnedPlatform vw r y).vx| < 5) := by
  obtain ⟨-, -, -, -, -, hvx, hcnt, -⟩ := reachable_inv e h
  refine ⟨hvx, hcnt, ?_, fun vw r y hr => spawnedPlatform_vx_bound vw r y hr⟩
  intro rs e2
  have hsg : (e2.startGame rs).1.platforms = (e2.resetGame rs).1.platforms := rfl
  have hsg2 : (e2.startGame rs).1.store = (e2.resetGame rs).1.store := rfl
  have hsg3 : (e2.startGame rs).1.player = (e2.resetGame rs).1.player := rfl
  refine ⟨?_, ?_, rfl, ?_⟩
  · rw [hsg, resetGame_eq_spawnFold]
    exact spawnFold_platforms_head _ _ _ _ e2.store.length [] rfl
  · rw [hsg2, resetGame_eq_spawnFold]
    rw [spawnFold_get_old _ _ _ _ e2.store.length
      (by show e2.store.length < (e2.store ++ [_]).length; simp)]
    show (e2.store ++ [_])[e2.store.length]? = _
    rw [List.getElem?_append_right (le_refl _)]
    simp
  · rw [hsg3, resetGame_eq_spawnFold, spawnFold_player]

theorem claim10_witness :
    (∀ pid ∈ E1.platforms, ∃ p, E1.store[pid]? = some p ∧
        (|p.vx| = 0 ∨ (2 ≤ |p.vx| ∧ |p.vx| < 5))) ∧
    E1.platforms.countP (stationaryB E1.store) ≤ 1 :=
  ⟨(claim10_stationary E1 E1_reachable).1, (claim10_stationary E1 E1_reachable).2.1⟩

/-! ### Claim C5 -/

theorem resetGame_platforms_length (rs : ℕ → SpawnRands) (e : GameEngine) :
    (e.resetGame rs).1.platforms.length = 6 := by
  rw [resetGame_eq_spawnFold, spawnFold_platforms_length]
  rfl

theorem recycleStep_platforms_length (r : SpawnRands) (e : GameEngine)
    (hv : ValidActive e) (hlen : 2 ≤ e.platforms.length) :
    (e.recycleStep r).platforms.length = e.platforms.length := by
  unfold GameEngine.recycleStep
  split
  · rfl
  · next x p0 rest heq =>
    split
    · rfl
    · next o p hgetp0 =>
      split
      · next hy =>
        have hrest : rest ≠ [] := by
          intro hnil
          rw [heq, hnil] at hlen
          simp at hlen
        dsimp only
        split
        · next hlastnone =>
          exact absurd (List.getLast?_eq_none_iff.mp hlastnone) hrest
        · next o2 lid hlastid =>
          split
          · next hgetnone =>
            have hmem : lid ∈ e.platforms := by
              rw [heq]
              exact List.mem_cons_of_mem p0 (List.mem_of_mem_getLast? hlastid)
            have hlt := hv lid hmem
            rw [List.getElem?_eq_getElem hlt] at hgetnone
            cases hgetnone
          · next o3 lastP hgetlid =>
            show (rest ++ [e.store.length]).length = e.platforms.length
            rw [heq]
            simp
      · rfl

theorem scroll_platforms_length (r : SpawnRands) (e : GameEngine)
    (hv : ValidActive e) (hlen : 2 ≤ e.platforms.length) :
    (e.scroll r).platforms.length = e.platforms.length := by
  unfold GameEngine.scroll
  dsimp only
  split
  · set eS : GameEngine :=
      { e with player := { e.player with y := e.viewportHeight * (3/5) },
               store := e.platforms.foldl
                 (shiftStep (e.viewportHeight * (3/5) - e.player.y)) e.store } with heS
    have hvS : ValidActive eS := by
      intro pid hm
      show pid < (e.platforms.foldl (shiftStep _) e.store).length
      rw [foldShift_length]
      exact hv pid hm
    exact recycleStep_platforms_length r eS hvS hlen
  · rfl

/-- **C5.** The active platform sequence length is invariant across
recycle events: (a) after a start/reset the sequence has exactly 6
platforms; (b) under the well-formedness conditions every reachable
state satisfies (valid ids, at least 2 active platforms) a tick
preserves the sequence length; (c) when the bottom-most platform has
scrolled past `viewportHeight + 100`, the recycle pass removes exactly
it and spawns exactly one platform at exactly `PLATFORM_SPACING` above
the last (= topmost) platform of the sequence; (d) in every reachable
state the active sequence's `y` values are strictly decreasing along
the array, so its last element is the topmost platform. -/
theorem claim5_sequence_length :
    (∀ (rs : ℕ → SpawnRands) (e : GameEngine),
       (e.startGame rs).1.platforms.length = 6) ∧
    (∀ (e : GameEngine) (dt : ℚ) (r : SpawnRands),
       ValidActive e → 2 ≤ e.platforms.length →
       (e.loopStep dt r).1.platforms.length = e.platforms.length) ∧
    (∀ (e : GameEngine) (r : SpawnRands) (p0 : ℕ) (rest : List ℕ)
       (pp : Platform) (lid : ℕ) (q : Platform),
       e.platforms = p0 :: rest → e.store[p0]? = some pp →
       pp.y > e.viewportHeight + 100 →
       rest.getLast? = some lid → e.store[lid]? = some q →
       (e.recycleStep r).platforms = rest ++ [e.store.length] ∧
       ((e.recycleStep r).store[e.store.length]?).map (fun s => s.y) =
         some (q.y - PLATFORM_SPACING)) ∧
    (∀ e : GameEngine, Reachable e →
       List.Chain' (· > ·) (e.platforms.map (platY e.store))) := by
  refine ⟨?_, ?_, ?_, ?_⟩
  · intro rs e
    exact resetGame_platforms_length rs e
  · intro e dt r hv hlen
    unfold GameEngine.loopStep
    split
    · rw [update_eq]
      dsimp only
      rw [(fallCheck_misc _).2.2.2.2.2.1, (collide_misc _).2.1]
      unfold GameEngine.physicsPhase
      dsimp only
      have hv1 : ValidActive { e.movePlatforms with
          player := Player.update e.movePlatforms.store e.movePlatforms.player } := by
        intro pid hm
        rw [show ({ e.movePlatforms with
            player := Player.update e.movePlatforms.store e.movePlatforms.player
          } : GameEngine).store.length = e.movePlatforms.store.length from rfl,
          movePlatforms_store_length]
        exact hv pid hm
      rw [scroll_platforms_length r _ hv1 hlen]
      rfl
    · rfl
  · intro e r p0 rest pp lid q heq hgetp0 hy hlast hgetlid
    unfold GameEngine.recycleStep
    rw [heq]
    try dsimp only
    rw [hgetp0]
    try dsimp only
    rw [if_pos hy]
    try dsimp only
    rw [hlast]
    try dsimp only
    rw [hgetlid]
    try dsimp only
    constructor
    · rfl
    · have hget := spawnPlatform_get_new r (q.y - PLATFORM_SPACING)
        { e with platforms := rest }
      rw [show ({ e with platforms := rest } : GameEngine).store = e.store from rfl] at hget
      rw [hget]
      rfl
  · intro e h
    obtain ⟨-, -, -, -, -, -, -, hch⟩ := reachable_inv e h
    exact hch

/-- A state whose bottom platform has scrolled out, one tick of
recycling away from replacement. -/
def Wrec : GameEngine :=
  { player := { x := 200, y := 400, vx := 0, vy := 0, width := 40, height := 40,
                color := WHITE, jumps := 0, currentPlatform := none },
    store := [cPlat 800, cPlat 300],
    platforms := [0, 1],
    state := GameState.playing, score := 0, gameSpeed := 3,
    perfectStreak := 0, isFever := false,
    viewportWidth := 400, viewportHeight := 600 }

set_option maxRecDepth 8000 in
unseal Rat.add Rat.mul Rat.sub Rat.inv in
theorem claim5_witness :
    (E1.platforms.length = 6) ∧
    ((S0.loopStep 1 r0).1.platforms.length = S0.platforms.length) ∧
    ((Wrec.recycleStep r0).platforms = [1, 2] ∧
      ((Wrec.recycleStep r0).store[2]?).map (fun s => s.y) = some 150) ∧
    List.Chain' (· > ·) (E1.platforms.map (platY E1.store)) := by
  have h := claim5_sequence_length
  refine ⟨h.1 rsHalf (GameEngine.new 400 600), ?_, ?_, h.2.2.2 E1 E1_reachable⟩
  · rw [h.2.1 S0 1 r0 (by intro pid hm; fin_cases hm <;> decide) (by decide)]
  · have hc := h.2.2.1 Wrec r0 0 [1] (cPlat 800) 1 (cPlat 300) rfl rfl
      (by decide) rfl rfl
    refine ⟨hc.1, ?_⟩
    show Option.map (fun s => s.y)
      (Wrec.recycleStep r0).store[Wrec.store.length]? = some 150
    rw [hc.2]
    decide

/-! ### Claim C3: notification traces -/

/-- The last value reported on each notification channel. -/
structure LastVals where
  ls : Option ℕ
  lst : Option GameState
  lf : Option Bool
  lc : Option ℕ
deriving DecidableEq, Repr

def LastVals.upd (L : LastVals) : Event → LastVals
  | Event.scoreUpdate n => { L with ls := some n }
  | Event.stateChange s2 => { L with lst := some s2 }
  | Event.feverChange b => { L with lf := some b }
  | Event.comboChange n => { L with lc := some n }

/-- A notification repeating the last reported value of its channel. -/
def isStutter (L : LastVals) : Event → Bool
  | Event.scoreUpdate n => decide (L.ls = some n)
  | Event.stateChange s2 => decide (L.lst = some s2)
  | Event.feverChange b => decide (L.lf = some b)
  | Event.comboChange n => decide (L.lc = some n)

def isStartOp : Op → Bool
  | Op.start _ => true
  | _ => false

/-- The stutters the code actually produces: the unconditional
notifications of the reset path / start transition, and the fever-on
notification that re-fires on every perfect at streak ≥ threshold. -/
def excusable (isStart : Bool) : Event → Bool
  | Event.feverChange true => true
  | Event.scoreUpdate 0 => isStart
  | Event.comboChange 0 => isStart
  | Event.feverChange false => isStart
  | Event.stateChange GameState.playing => isStart
  | _ => false

/-- Every event of the list either is no stutter or is excusable. -/
def evsOk (isStart : Bool) : LastVals → List Event → Bool
  | _, [] => true
  | L, ev :: rest =>
    (!(isStutter L ev) || excusable isStart ev) && evsOk isStart (L.upd ev) rest

/-- The claim as stated: no event of the list repeats the last reported
value of its channel. -/
def evsNoStutter : LastVals → List Event → Bool
  | _, [] => true
  | L, ev :: rest => !(isStutter L ev) && evsNoStutter (L.upd ev) rest

def traceOk : GameEngine → LastVals → List Op → Bool
  | _, _, [] => true
  | e, L, op :: ops =>
    evsOk (isStartOp op) L (stepOp e op).2 &&
      traceOk (stepOp e op).1 ((stepOp e op).2.foldl LastVals.upd L) ops

def traceNoStutter : GameEngine → LastVals → List Op → Bool
  | _, _, [] => true
  | e, L, op :: ops =>
    evsNoStutter L (stepOp e op).2 &&
      traceNoStutter (stepOp e op).1 ((stepOp e op).2.foldl LastVals.upd L) ops

def L0 : LastVals := ⟨none, none, none, none⟩

set_option maxRecDepth 8000 in
unseal Rat.add Rat.mul Rat.sub Rat.inv in
/-- **C3 (counterexample).** A start command followed by another start
command (a restart) re-fires the score-0, streak-0, fever-false and
phase-playing notifications although each equals the value last
reported on its channel: the claim "no notification callback is ever
invoked with a value equal to the value it last reported" fails on this
operation sequence. -/
theorem claim3_counterexample :
    traceNoStutter (GameEngine.new 400 600) L0 [Op.start rsHalf, Op.start rsHalf] =
      false := by
  decide

theorem evsOk_append (b : Bool) (L : LastVals) (l1 l2 : List Event) :
    evsOk b L (l1 ++ l2) = (evsOk b L l1 && evsOk b (l1.foldl LastVals.upd L) l2) := by
  induction l1 generalizing L with
  | nil => simp [evsOk]
  | cons ev l1 ih =>
    simp only [List.cons_append, evsOk, List.foldl_cons, Bool.and_assoc]
    congr 1
    exact ih (LastVals.upd L ev)

theorem spawnFold_fields (rs : ℕ → SpawnRands) (base : ℚ) (l : List ℕ)
    (e0 : GameEngine) :
    (spawnFold rs base l e0).score = e0.score ∧
    (spawnFold rs base l e0).perfectStreak = e0.perfectStreak ∧
    (spawnFold rs base l e0).isFever = e0.isFever ∧
    (spawnFold rs base l e0).state = e0.state := by
  induction l generalizing e0 with
  | nil => exact ⟨rfl, rfl, rfl, rfl⟩
  | cons a l ih =>
    have hstep : spawnFold rs base (a :: l) e0 =
        spawnFold rs base l
          (e0.spawnPlatform (rs (a + 1)) (base - ((a : ℚ) + 1) * PLATFORM_SPACING)) := rfl
    rw [hstep]
    exact ih _

theorem resetGame_fields (rs : ℕ → SpawnRands) (e : GameEngine) :
    (e.resetGame rs).1.score = 0 ∧ (e.resetGame rs).1.perfectStreak = 0 ∧
    (e.resetGame rs).1.isFever = false ∧ (e.resetGame rs).1.state = e.state ∧
    (e.resetGame rs).2 =
      [Event.scoreUpdate 0, Event.comboChange 0, Event.feverChange false] := by
  rw [resetGame_eq_spawnFold]
  exact ⟨(spawnFold_fields _ _ _ _).1, (spawnFold_fields _ _ _ _).2.1,
    (spawnFold_fields _ _ _ _).2.2.1, (spawnFold_fields _ _ _ _).2.2.2, rfl⟩

theorem startGame_fields (rs : ℕ → SpawnRands) (e : GameEngine) :
    (e.startGame rs).1.score = 0 ∧ (e.startGame rs).1.perfectStreak = 0 ∧
    (e.startGame rs).1.isFever = false ∧
    (e.startGame rs).1.state = GameState.playing ∧
    (e.startGame rs).2 =
      [Event.scoreUpdate 0, Event.comboChange 0, Event.feverChange false,
       Event.stateChange GameState.playing] := by
  obtain ⟨k1, k2, k3, k4, k5⟩ := resetGame_fields rs e
  have hs1 : e.startGame rs =
      ({ (e.resetGame rs).1 with state := GameState.playing },
       (e.resetGame rs).2 ++ [Event.stateChange GameState.playing]) := rfl
  rw [hs1]
  refine ⟨k1, k2, k3, rfl, ?_⟩
  rw [k5]
  rfl

theorem handleInput_fields (e : GameEngine) :
    e.handleInput.score = e.score ∧ e.handleInput.perfectStreak = e.perfectStreak ∧
    e.handleInput.isFever = e.isFever ∧ e.handleInput.state = e.state := by
  unfold GameEngine.handleInput
  cases hst : e.state <;> dsimp only
  case playing =>
    split
    · exact ⟨rfl, rfl, rfl, rfl⟩
    · exact ⟨rfl, rfl, rfl, hst⟩
  all_goals exact ⟨rfl, rfl, rfl, hst⟩

/-- The non-perfect branch of the scoring block: streak resets to 0,
fever clears, and the combo / fever notifications fire only when the
respective value was nonzero / set. -/
theorem landingScore_break (e : GameEngine) (pid : ℕ) (p : Platform)
    (hdist : ¬ |e.player.x - (p.x + p.width / 2)| < PERFECT_TOLERANCE) :
    (e.landingScore pid p).1.perfectStreak = 0 ∧
    (e.landingScore pid p).1.score = e.score + 1 ∧
    (e.landingScore pid p).1.isFever = false ∧
    (e.landingScore pid p).2 =
      Event.scoreUpdate ((e.score + 1) * (if e.isFever then FEVER_MULTIPLIER else 1)) ::
      ((if e.perfectStreak > 0 then [Event.comboChange 0] else []) ++
       (if e.isFever then [Event.feverChange false] else [])) := by
  unfold GameEngine.landingScore GameEngine.comboBreak
  dsimp only
  rw [if_neg hdist]
  by_cases hs : e.perfectStreak > 0
  · simp only [if_pos hs]
    by_cases hf : e.isFever = true
    · simp only [if_pos hf]
      refine ⟨?_, ?_, ?_, ?_⟩ <;> trivial
    · simp only [if_neg hf]
      refine ⟨?_, ?_, ?_, ?_⟩
      · trivial
      · trivial
      · show e.isFever = false
        simpa using hf
      · trivial
  · simp only [if_neg hs]
    by_cases hf : e.isFever = true
    · simp only [if_pos hf]
      refine ⟨?_, ?_, ?_, ?_⟩
      · show e.perfectStreak = 0
        omega
      · trivial
      · trivial
      · trivial
    · simp only [if_neg hf]
      refine ⟨?_, ?_, ?_, ?_⟩
      · show e.perfectStreak = 0
        omega
      · trivial
      · show e.isFever = false
        simpa using hf
      · trivial

theorem evsOk_cons_of (b : Bool) (L : LastVals) (ev : Event) (rest : List Event)
    (h1 : isStutter L ev = false ∨ excusable b ev = true)
    (h2 : evsOk b (L.upd ev) rest = true) :
    evsOk b L (ev :: rest) = true := by
  unfold evsOk
  rcases h1 with h | h <;> simp [h, h2]

theorem score_stutter_false (L : LastVals) (s : ℕ) (fv : Bool)
    (hA4 : L.ls = none ∨ L.ls = some s ∨ (L.ls = some (2 * s) ∧ 4 ≤ s)) :
    isStutter L
      (Event.scoreUpdate ((s + 1) * (if fv then FEVER_MULTIPLIER else 1))) = false := by
  unfold isStutter
  rw [decide_eq_false_iff_not]
  intro hc
  rcases hA4 with h | h | ⟨h, h4⟩ <;> rw [h] at hc <;> cases fv <;>
    simp [FEVER_MULTIPLIER] at hc <;> omega

theorem combo_stutter_false (L : LastVals) (st : ℕ)
    (hA1 : L.lc = none ∨ L.lc = some st) :
    isStutter L (Event.comboChange (st + 1)) = false := by
  unfold isStutter
  rw [decide_eq_false_iff_not]
  intro hc
  rcases hA1 with h | h <;> rw [h] at hc <;> simp at hc <;> omega

theorem combo0_stutter_false (L : LastVals) (st : ℕ) (hst : st > 0)
    (hA1 : L.lc = none ∨ L.lc = some st) :
    isStutter L (Event.comboChange 0) = false := by
  unfold isStutter
  rw [decide_eq_false_iff_not]
  intro hc
  rcases hA1 with h | h <;> rw [h] at hc <;> simp at hc <;> omega

theorem feverOff_stutter_false (L : LastVals)
    (hA2 : L.lf = none ∨ L.lf = some true) :
    isStutter L (Event.feverChange false) = false := by
  unfold isStutter
  rw [decide_eq_false_iff_not]
  intro hc
  rcases hA2 with h | h <;> rw [h] at hc <;> simp at hc

theorem gameover_stutter_false (L : LastVals) (s0 : GameState)
    (hs0 : s0 ≠ GameState.gameover) (hA3 : L.lst = none ∨ L.lst = some s0) :
    isStutter L (Event.stateChange GameState.gameover) = false := by
  unfold isStutter
  rw [decide_eq_false_iff_not]
  intro hc
  rcases hA3 with h | h <;> rw [h] at hc <;> simp at hc
  exact hs0 hc

/-- The score value reported on a landing fits the last-reported-score
patterns of the trace invariant. -/
theorem ls_pattern (s : ℕ) (fv : Bool) (hfv : fv = true → 3 ≤ s) :
    some ((s + 1) * (if fv then FEVER_MULTIPLIER else 1)) = some (s + 1) ∨
    (some ((s + 1) * (if fv then FEVER_MULTIPLIER else 1)) = some (2 * (s + 1)) ∧
      4 ≤ s + 1) := by
  cases fv with
  | false => left; simp
  | true =>
    right
    refine ⟨by simp [FEVER_MULTIPLIER, Nat.mul_comm], ?_⟩
    have := hfv rfl
    omega

/-- The engine-side invariant backing the trace property: the streak
never exceeds the raw score, and fever implies at least three points. -/
def EngInvC3 (e : GameEngine) : Prop :=
  e.perfectStreak ≤ e.score ∧ (e.isFever = true → 3 ≤ e.score)

/-- Each channel of the last-reported record either has never fired or
agrees with the engine (the score channel may also lag at twice the raw
score when large enough, the fever-report artefact). -/
def Agrees (e : GameEngine) (L : LastVals) : Prop :=
  (L.lc = none ∨ L.lc = some e.perfectStreak) ∧
  (L.lf = none ∨ L.lf = some e.isFever) ∧
  (L.lst = none ∨ L.lst = some e.state) ∧
  (L.ls = none ∨ L.ls = some e.score ∨ (L.ls = some (2 * e.score) ∧ 4 ≤ e.score))

theorem agrees_invariant_of_fields (e e2 : GameEngine) (L : LastVals)
    (g1 : e2.score = e.score) (g2 : e2.perfectStreak = e.perfectStreak)
    (g3 : e2.isFever = e.isFever) (g4 : e2.state = e.state)
    (hA : Agrees e L) (hI : EngInvC3 e) : Agrees e2 L ∧ EngInvC3 e2 := by
  obtain ⟨hA1, hA2, hA3, hA4⟩ := hA
  refine ⟨⟨?_, ?_, ?_, ?_⟩, ?_, ?_⟩
  · rcases hA1 with h | h
    · exact Or.inl h
    · exact Or.inr (by rw [g2, h])
  · rcases hA2 with h | h
    · exact Or.inl h
    · exact Or.inr (by rw [g3, h])
  · rcases hA3 with h | h
    · exact Or.inl h
    · exact Or.inr (by rw [g4, h])
  · rcases hA4 with h | h | ⟨h, h4⟩
    · exact Or.inl h
    · exact Or.inr (Or.inl (by rw [g1, h]))
    · exact Or.inr (Or.inr ⟨by rw [g1, h], by rw [g1]; exact h4⟩)
  · rw [g2, g1]; exact hI.1
  · rw [g3, g1]; exact hI.2

theorem agrees_transport (e e4 : GameEngine) (L : LastVals)
    (g1 : e4.score = e.score) (g2 : e4.perfectStreak = e.perfectStreak)
    (g3 : e4.isFever = e.isFever)
    (hA1 : L.lc = none ∨ L.lc = some e.perfectStreak)
    (hA2 : L.lf = none ∨ L.lf = some e.isFever)
    (hA4 : L.ls = none ∨ L.ls = some e.score ∨
      (L.ls = some (2 * e.score) ∧ 4 ≤ e.score)) :
    (L.lc = none ∨ L.lc = some e4.perfectStreak) ∧
    (L.lf = none ∨ L.lf = some e4.isFever) ∧
    (L.ls = none ∨ L.ls = some e4.score ∨
      (L.ls = some (2 * e4.score) ∧ 4 ≤ e4.score)) := by
  rw [g1, g2, g3]
  exact ⟨hA1, hA2, hA4⟩

/-- Processing the fall-out phase: its (at most one) game-over event is
never a stutter while playing, and the trace invariant is carried to
the post-tick state. -/
theorem fallCheck_tail (e4 : GameEngine) (L1 : LastVals) (b : Bool)
    (hstate : e4.state = GameState.playing)
    (h1 : L1.lc = none ∨ L1.lc = some e4.perfectStreak)
    (h2 : L1.lf = none ∨ L1.lf = some e4.isFever)
    (h3 : L1.lst = none ∨ L1.lst = some GameState.playing)
    (h4 : L1.ls = none ∨ L1.ls = some e4.score ∨
      (L1.ls = some (2 * e4.score) ∧ 4 ≤ e4.score))
    (hI : EngInvC3 e4) :
    evsOk b L1 ((e4.fallCheck).2) = true ∧
    Agrees ((e4.fallCheck).1) ((e4.fallCheck).2.foldl LastVals.upd L1) ∧
    EngInvC3 ((e4.fallCheck).1) := by
  obtain ⟨q1, q2⟩ := fallCheck_state e4
  obtain ⟨w0, w1, w2, w3, _, _, _, _⟩ := fallCheck_misc e4
  by_cases hfall : e4.player.y > e4.viewportHeight + 100
  · rw [q2, if_pos hfall]
    refine ⟨evsOk_cons_of _ _ _ _
        (Or.inl (gameover_stutter_false L1 GameState.playing (by decide) h3)) rfl,
      ⟨?_, ?_, ?_, ?_⟩, ?_, ?_⟩
    · rcases h1 with h | h
      · exact Or.inl h
      · exact Or.inr (by rw [w2]; exact h)
    · rcases h2 with h | h
      · exact Or.inl h
      · exact Or.inr (by rw [w3]; exact h)
    · exact Or.inr (by rw [q1, if_pos hfall]; exact rfl)
    · rcases h4 with h | h | ⟨h, hge⟩
      · exact Or.inl h
      · exact Or.inr (Or.inl (by rw [w1]; exact h))
      · exact Or.inr (Or.inr ⟨by rw [w1]; exact h, by rw [w1]; exact hge⟩)
    · rw [w2, w1]; exact hI.1
    · intro hf
      rw [w3] at hf
      rw [w1]
      exact hI.2 hf
  · rw [q2, if_neg hfall]
    refine ⟨rfl, ⟨?_, ?_, ?_, ?_⟩, ?_, ?_⟩
    · rcases h1 with h | h
      · exact Or.inl h
      · exact Or.inr (by rw [w2]; exact h)
    · rcases h2 with h | h
      · exact Or.inl h
      · exact Or.inr (by rw [w3]; exact h)
    · rcases h3 with h | h
      · exact Or.inl h
      · exact Or.inr (by rw [q1, if_neg hfall, hstate]; exact h)
    · rcases h4 with h | h | ⟨h, hge⟩
      · exact Or.inl h
      · exact Or.inr (Or.inl (by rw [w1]; exact h))
      · exact Or.inr (Or.inr ⟨by rw [w1]; exact h, by rw [w1]; exact hge⟩)
    · rw [w2, w1]; exact hI.1
    · intro hf
      rw [w3] at hf
      rw [w1]
      exact hI.2 hf

/-- One operation preserves the trace invariant, and the events it
fires are each either a genuine change or an excused stutter. -/
theorem stepOp_trace (e : GameEngine) (L : LastVals) (op : Op)
    (hA : Agrees e L) (hI : EngInvC3 e) :
    evsOk (isStartOp op) L (stepOp e op).2 = true ∧
    Agrees (stepOp e op).1 ((stepOp e op).2.foldl LastVals.upd L) ∧
    EngInvC3 (stepOp e op).1 := by
  obtain ⟨hA1, hA2, hA3, hA4⟩ := hA
  obtain ⟨hI1, hI2⟩ := hI
  cases op with
  | start rs =>
    obtain ⟨f1, f2, f3, f4, f5⟩ := startGame_fields rs e
    have hev : (stepOp e (Op.start rs)).2 =
        [Event.scoreUpdate 0, Event.comboChange 0, Event.feverChange false,
         Event.stateChange GameState.playing] := f5
    rw [hev]
    refine ⟨by simp [evsOk, excusable, isStartOp],
      ⟨Or.inr ?_, Or.inr ?_, Or.inr ?_, Or.inr (Or.inl ?_)⟩, ?_, ?_⟩
    · rw [show (stepOp e (Op.start rs)).1 = (e.startGame rs).1 from rfl, f2]
      exact rfl
    · rw [show (stepOp e (Op.start rs)).1 = (e.startGame rs).1 from rfl, f3]
      exact rfl
    · rw [show (stepOp e (Op.start rs)).1 = (e.startGame rs).1 from rfl, f4]
      exact rfl
    · rw [show (stepOp e (Op.start rs)).1 = (e.startGame rs).1 from rfl, f1]
      exact rfl
    · rw [show (stepOp e (Op.start rs)).1 = (e.startGame rs).1 from rfl, f2, f1]
    · intro hf
      rw [show (stepOp e (Op.start rs)).1 = (e.startGame rs).1 from rfl, f3] at hf
      exact Bool.noConfusion hf
  | input =>
    obtain ⟨g1, g2, g3, g4⟩ := handleInput_fields e
    have h := agrees_invariant_of_fields e e.handleInput L g1 g2 g3 g4
      ⟨hA1, hA2, hA3, hA4⟩ ⟨hI1, hI2⟩
    exact ⟨rfl, h.1, h.2⟩
  | resize w h =>
    have hr := agrees_invariant_of_fields e (e.resize w h) L rfl rfl rfl rfl
      ⟨hA1, hA2, hA3, hA4⟩ ⟨hI1, hI2⟩
    exact ⟨rfl, hr.1, hr.2⟩
  | tick dt r =>
    by_cases hpl : e.state = GameState.playing
    · have hstep : stepOp e (Op.tick dt r) = e.update dt r := by
        show e.loopStep dt r = e.update dt r
        unfold GameEngine.loopStep
        rw [if_pos hpl]
      rw [hstep, update_eq]
      dsimp only
      obtain ⟨m1, m2, m3, m4, m5, m6⟩ := physicsPhase_misc r e
      have h3p : L.lst = none ∨ L.lst = some GameState.playing := by
        rw [← hpl]; exact hA3
      rcases collide_cases (e.physicsPhase r) with hc | ⟨pid, p, hget, hlo, hfind, hc⟩ |
        ⟨pid, p, hget, hlo, hfind, hc⟩
      · rw [hc]
        have ht := agrees_transport e (e.physicsPhase r) L m2 m3 m4 hA1 hA2 hA4
        have hIe3 : EngInvC3 (e.physicsPhase r) :=
          ⟨by rw [m3, m2]; exact hI1, by rw [m4, m2]; exact hI2⟩
        exact fallCheck_tail _ L _ (m1.trans hpl) ht.1 ht.2.1 h3p ht.2.2 hIe3
      · rw [hc]
        have ht := agrees_transport e (e.physicsPhase r) L m2 m3 m4 hA1 hA2 hA4
        have hIe3 : EngInvC3 (e.physicsPhase r) :=
          ⟨by rw [m3, m2]; exact hI1, by rw [m4, m2]; exact hI2⟩
        exact fallCheck_tail _ L _ (m1.trans hpl) ht.1 ht.2.1 h3p ht.2.2 hIe3
      · rw [hc]
        set eL : GameEngine :=
          { e.physicsPhase r with player := (e.physicsPhase r).player.land p pid }
          with heL
        have hpidlt : pid < eL.store.length := (List.getElem?_eq_some.mp hget).1
        have hes : eL.score = e.score := m2
        have hest : eL.perfectStreak = e.perfectStreak := m3
        have hef : eL.isFever = e.isFever := m4
        have hestate : eL.state = e.state := m1
        by_cases hdist : |eL.player.x - (p.x + p.width / 2)| < PERFECT_TOLERANCE
        · obtain ⟨p1, p2, _, _, p5, p6, p7⟩ := landingScore_perfect eL pid p hdist hpidlt
          rw [hes, hest, hef] at p5
          rw [hest] at p1
          rw [hes] at p2
          rw [hest] at p6
          rw [hest, hef] at p7
          have hstate5 : (eL.landingScore pid p).1.state = GameState.playing := by
            rw [(landingScore_misc pid p eL).1, hestate, hpl]
          rw [p5]
          by_cases hge : e.perfectStreak + 1 ≥ FEVER_THRESHOLD
          · rw [if_pos hge]
            have h5f := p6 hge
            have hg2 : 3 ≤ e.perfectStreak + 1 := hge
            have hI5 : EngInvC3 (eL.landingScore pid p).1 := by
              refine ⟨by rw [p1, p2]; omega, ?_⟩
              intro hf0
              rw [p2]
              omega
            have ht := fallCheck_tail ((eL.landingScore pid p).1)
              ⟨some ((e.score + 1) * (if e.isFever then FEVER_MULTIPLIER else 1)),
               L.lst, some true, some (e.perfectStreak + 1)⟩ (isStartOp (Op.tick dt r))
              hstate5 (Or.inr (by rw [p1])) (Or.inr (by rw [h5f])) h3p
              (Or.inr (by rw [p2]; exact ls_pattern e.score e.isFever hI2)) hI5
            rw [evsOk_append, Bool.and_eq_true, List.foldl_append]
            refine ⟨⟨?_, ht.1⟩, ht.2.1, ht.2.2⟩
            refine evsOk_cons_of _ _ _ _
              (Or.inl (score_stutter_false L e.score e.isFever hA4)) ?_
            refine evsOk_cons_of _ _ _ _
              (Or.inl (combo_stutter_false _ e.perfectStreak hA1)) ?_
            exact evsOk_cons_of _ _ _ _ (Or.inr rfl) rfl
          · rw [if_neg hge]
            have h5f := p7 (by omega)
            have hI5 : EngInvC3 (eL.landingScore pid p).1 := by
              refine ⟨by rw [p1, p2]; omega, ?_⟩
              intro hf0
              rw [h5f] at hf0
              have := hI2 hf0
              rw [p2]
              omega
            have ht := fallCheck_tail ((eL.landingScore pid p).1)
              ⟨some ((e.score + 1) * (if e.isFever then FEVER_MULTIPLIER else 1)),
               L.lst, L.lf, some (e.perfectStreak + 1)⟩ (isStartOp (Op.tick dt r))
              hstate5 (Or.inr (by rw [p1])) ?hh2 h3p
              (Or.inr (by rw [p2]; exact ls_pattern e.score e.isFever hI2)) hI5
            case hh2 =>
              rcases hA2 with h | h
              · exact Or.inl h
              · exact Or.inr (by rw [h5f]; exact h)
            rw [evsOk_append, Bool.and_eq_true, List.foldl_append]
            refine ⟨⟨?_, ht.1⟩, ht.2.1, ht.2.2⟩
            refine evsOk_cons_of _ _ _ _
              (Or.inl (score_stutter_false L e.score e.isFever hA4)) ?_
            exact evsOk_cons_of _ _ _ _
              (Or.inl (combo_stutter_false _ e.perfectStreak hA1)) rfl
        · obtain ⟨b1, b2, b3, b4⟩ := landingScore_break eL pid p hdist
          rw [hes, hest, hef] at b4
          rw [hes] at b2
          have hstate5 : (eL.landingScore pid p).1.state = GameState.playing := by
            rw [(landingScore_misc pid p eL).1, hestate, hpl]
          have hI5 : EngInvC3 (eL.landingScore pid p).1 := by
            refine ⟨by rw [b1]; omega, ?_⟩
            intro hf0
            rw [b3] at hf0
            exact Bool.noConfusion hf0
          have hnf : false = true → 3 ≤ e.score := fun hcon => Bool.noConfusion hcon
          rw [b4]
          by_cases hs0 : e.perfectStreak > 0
          · simp only [if_pos hs0]
            by_cases hfev : e.isFever = true
            · simp only [if_pos hfev]
              have ht := fallCheck_tail ((eL.landingScore pid p).1)
                ⟨some ((e.score + 1) * FEVER_MULTIPLIER),
                 L.lst, some false, some 0⟩ (isStartOp (Op.tick dt r))
                hstate5 (Or.inr (by rw [b1])) (Or.inr (by rw [b3])) h3p
                (Or.inr (by rw [b2]; exact ls_pattern e.score true (fun _ => hI2 hfev)))
                hI5
              rw [evsOk_append, Bool.and_eq_true, List.foldl_append]
              refine ⟨⟨?_, ht.1⟩, ht.2.1, ht.2.2⟩
              refine evsOk_cons_of _ _ _ _
                (Or.inl (score_stutter_false L e.score true hA4)) ?_
              refine evsOk_cons_of _ _ _ _
                (Or.inl (combo0_stutter_false _ e.perfectStreak hs0 hA1)) ?_
              refine evsOk_cons_of _ _ _ _ (Or.inl (feverOff_stutter_false _ ?_)) rfl
              rcases hA2 with h | h
              · exact Or.inl h
              · exact Or.inr (by rw [← hfev]; exact h)
            · simp only [if_neg hfev]
              have hfalse : e.isFever = false := by simpa using hfev
              have ht := fallCheck_tail ((eL.landingScore pid p).1)
                ⟨some ((e.score + 1) * 1),
                 L.lst, L.lf, some 0⟩ (isStartOp (Op.tick dt r))
                hstate5 (Or.inr (by rw [b1])) ?hb2 h3p
                (Or.inr (by rw [b2]; exact ls_pattern e.score false hnf)) hI5
              case hb2 =>
                rcases hA2 with h | h
                · exact Or.inl h
                · rw [hfalse] at h
                  exact Or.inr (by rw [b3]; exact h)
              rw [evsOk_append, Bool.and_eq_true, List.foldl_append]
              refine ⟨⟨?_, ht.1⟩, ht.2.1, ht.2.2⟩
              refine evsOk_cons_of _ _ _ _
                (Or.inl (score_stutter_false L e.score false hA4)) ?_
              exact evsOk_cons_of _ _ _ _
                (Or.inl (combo0_stutter_false _ e.perfectStreak hs0 hA1)) rfl
          · simp only [if_neg hs0]
            have hstz : e.perfectStreak = 0 := by omega
            by_cases hfev : e.isFever = true
            · simp only [if_pos hfev]
              have ht := fallCheck_tail ((eL.landingScore pid p).1)
                ⟨some ((e.score + 1) * FEVER_MULTIPLIER),
                 L.lst, some false, L.lc⟩ (isStartOp (Op.tick dt r))
                hstate5 ?hb1 (Or.inr (by rw [b3])) h3p
                (Or.inr (by rw [b2]; exact ls_pattern e.score true (fun _ => hI2 hfev)))
                hI5
              case hb1 =>
                rcases hA1 with h | h
                · exact Or.inl h
                · rw [hstz] at h
                  exact Or.inr (by rw [b1]; exact h)
              rw [evsOk_append, Bool.and_eq_true, List.foldl_append]
              refine ⟨⟨?_, ht.1⟩, ht.2.1, ht.2.2⟩
              refine evsOk_cons_of _ _ _ _
                (Or.inl (score_stutter_false L e.score true hA4)) ?_
              refine evsOk_cons_of _ _ _ _ (Or.inl (feverOff_stutter_false _ ?_)) rfl
              rcases hA2 with h | h
              · exact Or.inl h
              · exact Or.inr (by rw [← hfev]; exact h)
            · simp only [if_neg hfev]
              have hfalse : e.isFever = false := by simpa using hfev
              have ht := fallCheck_tail ((eL.landingScore pid p).1)
                ⟨some ((e.score + 1) * 1),
                 L.lst, L.lf, L.lc⟩ (isStartOp (Op.tick dt r))
                hstate5 ?hc1 ?hc2 h3p
                (Or.inr (by rw [b2]; exact ls_pattern e.score false hnf)) hI5
              case hc1 =>
                rcases hA1 with h | h
                · exact Or.inl h
                · rw [hstz] at h
                  exact Or.inr (by rw [b1]; exact h)
              case hc2 =>
                rcases hA2 with h | h
                · exact Or.inl h
                · rw [hfalse] at h
                  exact Or.inr (by rw [b3]; exact h)
              rw [evsOk_append, Bool.and_eq_true, List.foldl_append]
              refine ⟨⟨?_, ht.1⟩, ht.2.1, ht.2.2⟩
              exact evsOk_cons_of _ _ _ _
                (Or.inl (score_stutter_false L e.score false hA4)) rfl
    · have hstep : stepOp e (Op.tick dt r) = (e, []) := by
        show e.loopStep dt r = (e, [])
        unfold GameEngine.loopStep
        rw [if_neg hpl]
      rw [hstep]
      exact ⟨rfl, ⟨hA1, hA2, hA3, hA4⟩, hI1, hI2⟩

theorem traceOk_of_agrees (ops : List Op) : ∀ (e : GameEngine) (L : LastVals),
    Agrees e L → EngInvC3 e → traceOk e L ops = true := by
  induction ops with
  | nil => intro e L _ _; rfl
  | cons op ops ih =>
    intro e L hA hI
    obtain ⟨h1, h2, h3⟩ := stepOp_trace e L op hA hI
    show (evsOk (isStartOp op) L (stepOp e op).2 &&
      traceOk (stepOp e op).1 ((stepOp e op).2.foldl LastVals.upd L) ops) = true
    rw [h1, Bool.true_and]
    exact ih _ _ h2 h3

/-- **C3 (amended).** For every operation sequence from a fresh engine,
every notification is either a genuine change of its channel's value or
one of the stutters the code deliberately fires: the reset/start
notifications of a (re)start command (score 0, streak 0, fever off,
phase playing), or a fever-on report repeated while a perfect streak
continues at or beyond the threshold. -/
theorem claim3_amended (w h : ℚ) (ops : List Op) :
    traceOk (GameEngine.new w h) L0 ops = true := by
  refine traceOk_of_agrees ops (GameEngine.new w h) L0
    ⟨Or.inl rfl, Or.inl rfl, Or.inl rfl, Or.inl rfl⟩ ⟨le_refl 0, ?_⟩
  intro hf
  exact Bool.noConfusion hf

end JellyJump
